import Mathlib

/-!
Verification of the resume feature-extraction and scoring engine of
`merged-app` (python sources under `ml-backend/`).

The Python sources are shallowly embedded:
* text is `String` / `List Char`; the regular expressions of the source are
  compiled by hand into executable Lean functions over `List Char`, with the
  compilation explained next to each definition (`\w` and `\s` are modelled
  over their ASCII core, which is what every pattern of the source uses);
* Python `float` arithmetic is idealised as `ℚ`; `round(x, n)` is Python's
  round-half-to-even, modelled exactly on `ℚ` by `pyRound`;
* Python dictionaries of features are a record of 31 optional fields
  (`FeatureDict`), a value being a number or a boolean (`FVal`), mirroring
  `features.get(name, default)` and Python truthiness;
* calls into external libraries (`textstat`, the pickled sklearn model) are
  modelled as explicit `Option`-valued parameters: `none` stands for the call
  raising an exception, which the source catches.
-/

namespace MergedApp

/-! ## ASCII character classes (`\w`, `\s`, `[a-z]`, `\d` of the source's regexes) -/

def isLowerAZ (c : Char) : Bool := 'a' ≤ c && c ≤ 'z'

def isUpperAZ (c : Char) : Bool := 'A' ≤ c && c ≤ 'Z'

def isAlphaAZ (c : Char) : Bool := isLowerAZ c || isUpperAZ c

def isDigit09 (c : Char) : Bool := '0' ≤ c && c ≤ '9'

/-- `\w` (word character), ASCII core: `[A-Za-z0-9_]`. -/
def isWordChar (c : Char) : Bool := isAlphaAZ c || isDigit09 c || c = '_'

/-- `\s` (whitespace), ASCII core: space, tab, newline, CR, vertical tab, form feed. -/
def isWsChar (c : Char) : Bool :=
  c = ' ' || c = '\t' || c = '\n' || c = '\r' || c = Char.ofNat 11 || c = Char.ofNat 12

def lowerChar (c : Char) : Char := c.toLower

def lowerL (s : List Char) : List Char := s.map lowerChar

/-- Python `str.lower()` (ASCII core). -/
def lowerStr (s : String) : String := String.mk (lowerL s.toList)

/-- The apostrophe character (U+0027), used by the degree regexes. -/
def apoC : Char := Char.ofNat 39

/-! ## Literal-occurrence helpers -/

/-- Does `lit` occur at the head of `s`? (Python `s.startswith(lit)` at a position.) -/
def headLit : List Char → List Char → Bool
  | [], _ => true
  | _ :: _, [] => false
  | a :: as, b :: bs => a = b && headLit as bs

/-- Python `lit in s` (substring containment). -/
def hasLit (lit : List Char) : List Char → Bool
  | [] => headLit lit []
  | c :: cs => headLit lit (c :: cs) || hasLit lit cs

/-- Python `s.count(ch)` for a single character. -/
def countChar (ch : Char) (s : List Char) : Nat := (s.filter (fun c => c = ch)).length

/-- `\b` at a position: the word-character statuses of the two neighbouring
characters differ (a missing neighbour counts as a non-word character). -/
def boundaryOk (prev : Option Char) (next : Option Char) : Bool :=
  (match prev with | none => false | some c => isWordChar c)
    ≠ (match next with | none => false | some c => isWordChar c)

/-- `\b lit \b` occurs in `s`, given the character preceding `s` (if any):
`lit` occurs with a word boundary at both ends.  This compiles the source's
`rf'\b{re.escape(kw)}\b'` searches. -/
def boundedLitFrom (lit : List Char) : Option Char → List Char → Bool
  | _, [] => false
  | prev, c :: cs =>
    (headLit lit (c :: cs)
      && boundaryOk prev (some c)
      && (match lit.getLast? with
          | none => false
          | some lc => boundaryOk (some lc) ((c :: cs).drop lit.length).head?))
    || boundedLitFrom lit (some c) cs

def boundedLit (lit : List Char) (s : List Char) : Bool := boundedLitFrom lit none s

/-! ## `generate_synthetic_data_v2.py`: the non-linear reference scorer's
experience term (claim C4) -/

/-- `IndustryGradeATSGenerator._nonlinear_experience_score` (v2 generator,
lines 107-143), translated clause by clause.  `years` is a Python float,
`num_jobs` and `metrics` Python ints. -/
def nonlinearExperienceScore (years : ℚ) (numJobs : ℤ) (metrics : ℤ)
    (jobHopping : Bool) : ℚ :=
  let expBase : ℚ :=
    if years < 1 then years * 3
    else if years < 3 then 3 + (years - 1) * 3
    else if years < 7 then 9 + (years - 3) * 2
    else if years < 12 then 17 + (years - 7) * 1
    else 22 + min 3 ((years - 12) * 0.3)
  let expBase : ℚ :=
    if 2 ≤ numJobs ∧ numJobs ≤ 5 then expBase + min 3 ((numJobs : ℚ) * 0.8)
    else if 5 < numJobs then expBase + 3
    else expBase
  let expBase : ℚ := expBase + min 4 ((metrics : ℚ) * 0.4)
  let expBase : ℚ := if jobHopping then expBase * 0.75 else expBase
  min 25 expBase

/-- The pre-cap, pre-penalty accumulator of `_nonlinear_experience_score`:
the value of `exp_base` just before the job-hopping multiplication. -/
def nlExpBase (years : ℚ) (numJobs : ℤ) (metrics : ℤ) : ℚ :=
  let expBase : ℚ :=
    if years < 1 then years * 3
    else if years < 3 then 3 + (years - 1) * 3
    else if years < 7 then 9 + (years - 3) * 2
    else if years < 12 then 17 + (years - 7) * 1
    else 22 + min 3 ((years - 12) * 0.3)
  let expBase : ℚ :=
    if 2 ≤ numJobs ∧ numJobs ≤ 5 then expBase + min 3 ((numJobs : ℚ) * 0.8)
    else if 5 < numJobs then expBase + 3
    else expBase
  expBase + min 4 ((metrics : ℚ) * 0.4)

/-- The job-hopping trigger of `_calculate_ats_score` (v2 generator, lines
255-256): `years_of_experience > 3 and number_of_jobs > years_of_experience / 1.5`. -/
def jobHoppingCond (years : ℚ) (numJobs : ℤ) : Prop :=
  years > 3 ∧ (numJobs : ℚ) > years / 1.5

instance (years : ℚ) (numJobs : ℤ) : Decidable (jobHoppingCond years numJobs) := by
  unfold jobHoppingCond; infer_instance

/-- The experience term of `_calculate_ats_score` (v2 generator, lines
254-263): the non-linear experience score at the features' years, jobs and
quantifiable metrics, with the job-hopping flag computed as in the source. -/
def experienceTerm (years : ℚ) (numJobs : ℤ) (metrics : ℤ) : ℚ :=
  nonlinearExperienceScore years numJobs metrics
    (decide (jobHoppingCond years numJobs))

/-! ## Python `round` and numeric helpers -/

/-- Round to the nearest integer, ties to the even integer
(Python's `round` on exact values). -/
def roundHalfEven (q : ℚ) : ℤ :=
  let f := ⌊q⌋
  if q - f < 1/2 then f
  else if q - f > 1/2 then f + 1
  else if 2 ∣ f then f else f + 1

/-- Python `round(q, n)` (round half to even at the `n`-th decimal), modelled
exactly on `ℚ`. -/
def pyRound (q : ℚ) (n : ℕ) : ℚ := (roundHalfEven (q * 10 ^ n) : ℚ) / 10 ^ n

/-! ## `ml_service.py`: feature dictionaries

A Python feature dictionary maps the 31 feature names to numbers or booleans;
a key may be absent.  `FeatureDict` carries one `Option FVal` per feature
name; `getNum`/`getTruthy` mirror `features.get(name, default)` followed by
numeric use resp. Python truthiness. -/

inductive FVal where
  | num (q : ℚ)
  | boolVal (b : Bool)
deriving DecidableEq

/-- Numeric value of a dictionary entry (`float(value)`, with Python's
`True`/`False` valued `1`/`0`). -/
def FVal.toFloat : FVal → ℚ
  | .num q => q
  | .boolVal b => if b then 1 else 0

/-- Python truthiness of a dictionary entry. -/
def FVal.truthy : FVal → Bool
  | .num q => q != 0
  | .boolVal b => b

structure FeatureDict where
  total_words : Option FVal := none
  total_sentences : Option FVal := none
  total_characters : Option FVal := none
  avg_word_length : Option FVal := none
  avg_sentence_length : Option FVal := none
  total_sections : Option FVal := none
  has_summary : Option FVal := none
  has_experience : Option FVal := none
  has_education : Option FVal := none
  has_skills : Option FVal := none
  has_projects : Option FVal := none
  has_certifications : Option FVal := none
  has_email : Option FVal := none
  has_phone : Option FVal := none
  has_linkedin : Option FVal := none
  has_github : Option FVal := none
  action_verb_count : Option FVal := none
  quantifiable_metrics : Option FVal := none
  bullet_point_count : Option FVal := none
  technical_terms_count : Option FVal := none
  years_of_experience : Option FVal := none
  number_of_jobs : Option FVal := none
  has_job_titles : Option FVal := none
  degree_level : Option FVal := none
  has_gpa : Option FVal := none
  total_skills_mentioned : Option FVal := none
  programming_languages : Option FVal := none
  readability_score : Option FVal := none
  appropriate_length : Option FVal := none
  consistent_formatting : Option FVal := none
  keyword_match_score : Option FVal := none

/-- `features.get(name, dflt)` used numerically. -/
def getNum (o : Option FVal) (dflt : ℚ) : ℚ :=
  match o with
  | none => dflt
  | some v => v.toFloat

/-- `features.get(name, False)` used as a condition (Python truthiness). -/
def getTruthy (o : Option FVal) : Bool :=
  match o with
  | none => false
  | some v => v.truthy

/-- Dictionary lookup by feature name (`features.get(name, …)`). -/
def dictGet (d : FeatureDict) (name : String) : Option FVal :=
  if name = "total_words" then d.total_words
  else if name = "total_sentences" then d.total_sentences
  else if name = "total_characters" then d.total_characters
  else if name = "avg_word_length" then d.avg_word_length
  else if name = "avg_sentence_length" then d.avg_sentence_length
  else if name = "total_sections" then d.total_sections
  else if name = "has_summary" then d.has_summary
  else if name = "has_experience" then d.has_experience
  else if name = "has_education" then d.has_education
  else if name = "has_skills" then d.has_skills
  else if name = "has_projects" then d.has_projects
  else if name = "has_certifications" then d.has_certifications
  else if name = "has_email" then d.has_email
  else if name = "has_phone" then d.has_phone
  else if name = "has_linkedin" then d.has_linkedin
  else if name = "has_github" then d.has_github
  else if name = "action_verb_count" then d.action_verb_count
  else if name = "quantifiable_metrics" then d.quantifiable_metrics
  else if name = "bullet_point_count" then d.bullet_point_count
  else if name = "technical_terms_count" then d.technical_terms_count
  else if name = "years_of_experience" then d.years_of_experience
  else if name = "number_of_jobs" then d.number_of_jobs
  else if name = "has_job_titles" then d.has_job_titles
  else if name = "degree_level" then d.degree_level
  else if name = "has_gpa" then d.has_gpa
  else if name = "total_skills_mentioned" then d.total_skills_mentioned
  else if name = "programming_languages" then d.programming_languages
  else if name = "readability_score" then d.readability_score
  else if name = "appropriate_length" then d.appropriate_length
  else if name = "consistent_formatting" then d.consistent_formatting
  else if name = "keyword_match_score" then d.keyword_match_score
  else none

/-! ## `MLService._features_to_array` (ml_service.py lines 133-157) -/

/-- The fixed feature order of `_features_to_array` (the training contract). -/
def featureOrder : List String :=
  ["total_words", "total_sentences", "total_characters",
   "avg_word_length", "avg_sentence_length", "total_sections",
   "has_summary", "has_experience", "has_education", "has_skills",
   "has_projects", "has_certifications", "has_email", "has_phone",
   "has_linkedin", "has_github", "action_verb_count",
   "quantifiable_metrics", "bullet_point_count", "technical_terms_count",
   "years_of_experience", "number_of_jobs", "has_job_titles",
   "degree_level", "has_gpa", "total_skills_mentioned",
   "programming_languages", "readability_score", "appropriate_length",
   "consistent_formatting", "keyword_match_score"]

/-- One entry of the serialized vector: `value = features.get(name, 0)`,
booleans converted to integers, then `float(value)`. -/
def pyFloatEntry (o : Option FVal) : ℚ :=
  match o with
  | none => 0
  | some v => v.toFloat

/-- `MLService._features_to_array`. -/
def featuresToArray (d : FeatureDict) : List ℚ :=
  featureOrder.map (fun name => pyFloatEntry (dictGet d name))

/-! ## `MLService` suggestions, breakdown, fallback scoring -/

structure Suggestion where
  category : String
  priority : String
  suggestion : String
deriving DecidableEq

/-- `priority_order = {'high': 0, 'medium': 1, 'low': 2}` (only these three
priorities are ever produced). -/
def priorityRank (p : String) : Nat :=
  if p = "high" then 0 else if p = "medium" then 1 else 2

/-- Python's `list.sort` with key `priority_order[x['priority']]`: `list.sort`
is stable, and a stable sort by a three-valued key is exactly the in-order
concatenation of the three key classes. -/
def sortByPriority (l : List Suggestion) : List Suggestion :=
  l.filter (fun x => priorityRank x.priority = 0)
    ++ l.filter (fun x => priorityRank x.priority = 1)
    ++ l.filter (fun x => priorityRank x.priority = 2)

def msgKeywords : String :=
  "Add more relevant keywords from the job description to your resume"

def msgActionVerbs : String :=
  "Use more action verbs (achieved, managed, led, developed, etc.) to describe your accomplishments"

def msgMetrics : String :=
  "Add quantifiable achievements (increased by 30%, managed $2M budget, led team of 10, etc.)"

def msgTooBrief : String :=
  "Your resume is too brief. Add more details about your experience and achievements"

def msgTooLong : String :=
  "Your resume is too long. Focus on the most relevant and recent experience"

def msgSkills : String :=
  "List more relevant technical and soft skills (aim for 10-15 skills)"

def msgContact : String :=
  "Ensure your contact information (email and phone) is clearly visible"

def msgBullets : String :=
  "Use bullet points to make your experience more readable"

/-- The rule list of `MLService._generate_suggestions` (ml_service.py lines
207-289) in evaluation order, before sorting and truncation. -/
def suggestionRules (d : FeatureDict) : List Suggestion :=
  (if getNum d.keyword_match_score 50 < 60 then
      [⟨"keywords", "high", msgKeywords⟩] else [])
    ++ (if getNum d.action_verb_count 0 < 10 then
      [⟨"experience", "high", msgActionVerbs⟩] else [])
    ++ (if getNum d.quantifiable_metrics 0 < 5 then
      [⟨"experience", "high", msgMetrics⟩] else [])
    ++ (if ¬ getTruthy d.appropriate_length then
         (if getNum d.total_words 0 < 300 then
           [⟨"formatting", "medium", msgTooBrief⟩]
          else if getNum d.total_words 0 > 1000 then
           [⟨"formatting", "medium", msgTooLong⟩]
          else [])
        else [])
    ++ (if getNum d.total_sections 0 < 4 then
         (let missing : List String :=
            (if ¬ getTruthy d.has_summary then ["professional summary"] else [])
            ++ (if ¬ getTruthy d.has_skills then ["skills section"] else [])
          if missing ≠ [] then
            [⟨"structure", "medium",
              "Add missing sections: " ++ String.intercalate ", " missing⟩]
          else [])
        else [])
    ++ (if getNum d.total_skills_mentioned 0 < 8 then
      [⟨"skills", "medium", msgSkills⟩] else [])
    ++ (if ¬ getTruthy d.has_email ∨ ¬ getTruthy d.has_phone then
      [⟨"structure", "high", msgContact⟩] else [])
    ++ (if getNum d.bullet_point_count 0 < 5 then
      [⟨"formatting", "low", msgBullets⟩] else [])

/-- `MLService._generate_suggestions` (ml_service.py lines 207-293): the
fixed rule list in evaluation order, then the stable priority sort, then
`suggestions[:8]`.  The `score` argument is unused by the source as well. -/
def generateSuggestions (d : FeatureDict) (_score : ℚ) : List Suggestion :=
  (sortByPriority (suggestionRules d)).take 8

/-- The score breakdown record returned by `_generate_breakdown`;
`structureCat` carries the `'structure'` key. -/
structure BreakdownRec where
  keywords : ℚ
  experience : ℚ
  formatting : ℚ
  skills : ℚ
  structureCat : ℚ
deriving DecidableEq

/-- `MLService._generate_breakdown` (ml_service.py lines 169-205). -/
def generateBreakdown (d : FeatureDict) (_overallScore : ℚ) : BreakdownRec :=
  let keywordScore := min 100 (getNum d.keyword_match_score 50 * 1.2)
  let experienceScore := min 100
    (getNum d.action_verb_count 0 * 4
      + getNum d.quantifiable_metrics 0 * 5
      + min (getNum d.years_of_experience 0 * 10) 50)
  let formattingScore := min 100
    ((if getTruthy d.appropriate_length then (50 : ℚ) else 20)
      + (if getTruthy d.consistent_formatting then 30 else 10)
      + (if getNum d.bullet_point_count 0 > 5 then 20 else 10))
  let skillsScore := min 100
    (getNum d.total_skills_mentioned 0 * 7
      + getNum d.programming_languages 0 * 10)
  let structureScore := min 100
    (getNum d.total_sections 0 * 15
      + (if getTruthy d.has_summary then (10 : ℚ) else 0)
      + (if getTruthy d.has_experience then 20 else 0)
      + (if getTruthy d.has_education then 15 else 0)
      + (if getTruthy d.has_skills then 15 else 0))
  { keywords := pyRound keywordScore 1
    experience := pyRound experienceScore 1
    formatting := pyRound formattingScore 1
    skills := pyRound skillsScore 1
    structureCat := pyRound structureScore 1 }

structure PredictionResult where
  overall_score : ℚ
  confidence : ℚ
  breakdown : BreakdownRec
  suggestions : List Suggestion
  model_version : String
deriving DecidableEq

/-- `MLService._fallback_prediction` (ml_service.py lines 295-339),
translated statement by statement. -/
def fallbackPrediction (d : FeatureDict) : PredictionResult :=
  let score : ℚ := 0
  let score := score + getNum d.keyword_match_score 50 * 0.3
  let expScore : ℚ := min 100
    (getNum d.action_verb_count 0 * 3
      + getNum d.quantifiable_metrics 0 * 4
      + min (getNum d.years_of_experience 0 * 8) 40)
  let score := score + expScore * 0.25
  let structScore : ℚ :=
    getNum d.total_sections 0 * 12
      + (if getTruthy d.has_summary then 10 else 0)
      + (if getTruthy d.has_experience then 20 else 0)
  let score := score + (min 100 structScore) * 0.2
  let skillsScore : ℚ := min 100 (getNum d.total_skills_mentioned 0 * 8)
  let score := score + skillsScore * 0.15
  let formatScore : ℚ :=
    (if getTruthy d.appropriate_length then (50 : ℚ) else 20)
      + (if getTruthy d.consistent_formatting then 30 else 10)
      + (if getNum d.bullet_point_count 0 > 5 then 20 else 10)
  let score := score + (min 100 formatScore) * 0.1
  let score := max 0 (min 100 score)
  { overall_score := pyRound score 1
    confidence := 0.7
    breakdown := generateBreakdown d score
    suggestions := generateSuggestions d score
    model_version := "fallback-1.0.0" }

/-- `MLService.predict_ats_score` (ml_service.py lines 85-131).  The calls
into the pickled model are external: `modelOutcome` is the outcome of the
`try` block's feature conversion + scaling + `model.predict` (`none` models
an exception at any of these steps, caught by the source's `except`);
`confOutcome` is the outcome of `_get_confidence` (whose own `try`/`except`
defaults to `0.85`); `modelVersion` is `self.model_version` (`None` when
unset, giving `'2.0.0'` via `or`). -/
def predictAtsScore (modelLoaded : Bool) (modelOutcome : Option ℚ)
    (confOutcome : Option ℚ) (modelVersion : Option String)
    (d : FeatureDict) : PredictionResult :=
  if ¬ modelLoaded then fallbackPrediction d
  else
    match modelOutcome with
    | none => fallbackPrediction d
    | some raw =>
      let score := max 0 (min 100 raw)
      let confidence := confOutcome.getD 0.85
      { overall_score := pyRound score 1
        confidence := confidence
        breakdown := generateBreakdown d score
        suggestions := generateSuggestions d score
        model_version := modelVersion.getD "2.0.0" }

/-! ## Maximal-run tokenisation

`re.findall(r'\b[a-z]{n,}\b', s)` returns exactly the maximal `[a-z]`-runs of
length ≥ n both of whose neighbouring characters are non-word characters (or
absent): a shorter sub-run would end between two letters, where there is no
word boundary, so backtracking cannot produce further matches. -/

/-- All maximal runs of characters satisfying `p`, each with the character
preceding and the character following the run (`none` at the ends of the
text).  Structural recursion on `fuel`, which the wrapper sets to the text
length: each step continues on `cs.dropWhile p` (length ≤ `cs.length`) or on
`cs`, so a fuel equal to the length never runs out. -/
def runsWithCtxF (p : Char → Bool) :
    Nat → Option Char → List Char → List (Option Char × List Char × Option Char)
  | 0, _, _ => []
  | fuel + 1, prev, s =>
    match s with
    | [] => []
    | c :: cs =>
      if p c then
        let run := c :: cs.takeWhile p
        let rest := cs.dropWhile p
        (prev, run, rest.head?) :: runsWithCtxF p fuel run.getLast? rest
      else
        runsWithCtxF p fuel (some c) cs

def runsWithCtx (p : Char → Bool) (prev : Option Char) (s : List Char) :
    List (Option Char × List Char × Option Char) :=
  runsWithCtxF p s.length prev s

def isOptWordChar : Option Char → Bool
  | none => false
  | some c => isWordChar c

/-- `set(re.findall(r'\b[a-z]{n,}\b', s))` as a `Finset String`. -/
def lowerWordsMin (n : Nat) (s : List Char) : Finset String :=
  ((runsWithCtx isLowerAZ none s).filterMap (fun t =>
    if n ≤ t.2.1.length && !isOptWordChar t.1 && !isOptWordChar t.2.2
    then some (String.mk t.2.1) else none)).toFinset

/-! ## `FeatureExtractor` vocabularies (feature_extraction.py lines 16-95) -/

/-- `FeatureExtractor.TECH_SKILLS`. -/
def TECH_SKILLS : List String :=
  ["python", "java", "javascript", "typescript", "c++", "c#", "ruby", "php",
   "swift", "kotlin", "go", "golang", "rust", "scala", "r", "matlab", "perl",
   "objective-c", "dart", "lua", "haskell", "clojure", "elixir", "f#",
   "react", "angular", "vue", "svelte", "next.js", "nextjs", "nuxt", "gatsby",
   "django", "flask", "fastapi", "express", "node.js", "nodejs", "spring",
   "rails", "laravel", "asp.net", ".net", "dotnet",
   "tensorflow", "pytorch", "keras", "scikit-learn", "sklearn", "pandas", "numpy",
   "spark", "hadoop", "kafka", "airflow", "mlflow", "huggingface",
   "aws", "azure", "gcp", "google cloud", "amazon web services", "heroku",
   "digitalocean", "cloudflare", "vercel", "netlify",
   "docker", "kubernetes", "k8s", "jenkins", "circleci", "github actions",
   "gitlab ci", "terraform", "ansible", "puppet", "chef", "vagrant",
   "sql", "mysql", "postgresql", "postgres", "mongodb", "redis", "elasticsearch",
   "dynamodb", "cassandra", "oracle", "sqlite", "mariadb", "neo4j", "graphql",
   "git", "github", "gitlab", "bitbucket", "jira", "confluence", "slack",
   "figma", "sketch", "postman", "swagger", "nginx", "apache",
   "rest", "restful", "api", "microservices", "serverless", "ci/cd", "cicd",
   "agile", "scrum", "kanban", "devops", "sre", "tdd", "bdd",
   "machine learning", "deep learning", "nlp", "computer vision", "ai",
   "data science", "data engineering", "etl", "data pipeline"]

/-- The `filler_words` stop list of `_calculate_keyword_match`. -/
def fillerWords : List String :=
  ["the", "and", "for", "with", "this", "that", "from", "have", "will",
   "your", "our", "you", "are", "can", "they", "their", "about", "more",
   "been", "being", "would", "could", "should", "also", "other", "than",
   "just", "only", "over", "such", "into", "through", "during", "before",
   "after", "above", "below", "between", "under", "again", "further",
   "then", "once", "here", "there", "when", "where", "which", "while",
   "company", "team", "work", "working", "looking", "position", "role",
   "experience", "required", "requirements", "qualifications", "skills",
   "ability", "knowledge", "understanding", "excellent", "strong", "good"]

/-! ## `FeatureExtractor._calculate_keyword_match` (feature_extraction.py
lines 463-525) -/

/-- `jd_tech`: technical-vocabulary terms occurring (as substrings) in the
lower-cased job description. -/
def jdTechSet (jdLower : List Char) : Finset String :=
  (TECH_SKILLS.filter (fun t => hasLit t.toList jdLower)).toFinset

/-- `jd_words`: 4+-letter words of the job description minus the stop list. -/
def jdWordsSet (jdLower : List Char) : Finset String :=
  lowerWordsMin 4 jdLower \ fillerWords.toFinset

/-- `resume_words`: 3+-letter word tokens of the resume text. -/
def resumeWordsSet (resume : List Char) : Finset String :=
  lowerWordsMin 3 resume

/-- `resume_tech`: technical-vocabulary terms occurring (as substrings) in
the resume text. -/
def resumeTechSet (resume : List Char) : Finset String :=
  (TECH_SKILLS.filter (fun t => hasLit t.toList resume)).toFinset

/-- The arithmetic core of `_calculate_keyword_match` once the four keyword
sets are extracted: intersection counts, the doubled technical weight, the
ratio and the `[10, 95]` clamp. -/
def keywordRatioScore (important jdTech resumeAll resumeTech : Finset String) : ℚ :=
  let matchedKw := important ∩ resumeAll
  let techMatches := jdTech ∩ resumeTech
  let techWeight := techMatches.card * 2
  let totalImportant := important.card + jdTech.card
  let totalMatches := matchedKw.card + techWeight
  if totalImportant = 0 then 50
  else max 10 (min 95 ((totalMatches : ℚ) / (totalImportant : ℚ) * 100))

/-- Python truthiness of the optional `job_description` argument
(`if not job_description`): `None` and the empty string are falsy. -/
def pyTruthyStrOpt : Option String → Bool
  | none => false
  | some s => s.length != 0

/-- `FeatureExtractor._calculate_keyword_match`. -/
def calculateKeywordMatch (resumeText : String) (jobDescription : Option String) : ℚ :=
  if ¬ pyTruthyStrOpt jobDescription then 50
  else
    let jdLower := lowerL (jobDescription.getD "").toList
    let jdTech := jdTechSet jdLower
    let jdWords := jdWordsSet jdLower
    let important := jdTech ∪ jdWords
    if important = ∅ then 50
    else
      let resume := resumeText.toList
      keywordRatioScore important jdTech
        (resumeWordsSet resume ∪ resumeTechSet resume) (resumeTechSet resume)

/-! ## A small matcher for the source's fixed regexes

The remaining regexes of `feature_extraction.py` are sequences of literal
characters, single-character classes, `?`/`*`/`+` over single-character
classes, and `\b`.  `Atom` is one element of such a sequence; `seqMatch`
decides whether the sequence matches a PREFIX of the text (trying every way
of resolving the optional and repeated atoms, which is exactly search
existence for a backtracking engine); `seqSearch` decides whether it matches
anywhere.  `\b` needs the character preceding the current position, which is
threaded through as `prev`. -/

inductive Atom where
  /-- one character of class `p` -/
  | req (p : Char → Bool)
  /-- `p?`: zero or one character of class `p` -/
  | opt (p : Char → Bool)
  /-- `p*`: zero or more characters of class `p` -/
  | star (p : Char → Bool)
  /-- `p+`: one or more characters of class `p` -/
  | plus (p : Char → Bool)
  /-- `\b` -/
  | bdry

/-- Does the atom sequence match a prefix of `s` (under some resolution of
the optional atoms)?  `prev` is the character just before `s` in the full
text. -/
def seqMatchF : Nat → Option Char → List Atom → List Char → Bool
  | 0, _, _, _ => false
  | fuel + 1, prev, atoms, s =>
    match atoms with
    | [] => true
    | .bdry :: rest => boundaryOk prev s.head? && seqMatchF fuel prev rest s
    | .req p :: rest =>
      match s with
      | [] => false
      | c :: cs => p c && seqMatchF fuel (some c) rest cs
    | .opt p :: rest =>
      seqMatchF fuel prev rest s ||
        (match s with
         | [] => false
         | c :: cs => p c && seqMatchF fuel (some c) rest cs)
    | .star p :: rest =>
      seqMatchF fuel prev rest s ||
        (match s with
         | [] => false
         | c :: cs => p c && seqMatchF fuel (some c) (.star p :: rest) cs)
    | .plus p :: rest =>
      match s with
      | [] => false
      | c :: cs =>
        p c && (seqMatchF fuel (some c) rest cs
          || seqMatchF fuel (some c) (.plus p :: rest) cs)

/-- Structural recursion on `fuel`: every recursive step of `seqMatchF`
shrinks `s.length + atoms.length` by at least one, so a fuel exceeding that
measure never reaches the (failing) base case. -/
def seqMatch (prev : Option Char) (atoms : List Atom) (s : List Char) : Bool :=
  seqMatchF (s.length + atoms.length + 1) prev atoms s

/-- Does the atom sequence match anywhere in `s`? -/
def seqSearchFrom (atoms : List Atom) : Option Char → List Char → Bool
  | prev, [] => seqMatch prev atoms []
  | prev, c :: cs => seqMatch prev atoms (c :: cs) || seqSearchFrom atoms (some c) cs

def seqSearch (atoms : List Atom) (s : List Char) : Bool := seqSearchFrom atoms none s

/-- The atoms of a literal string. -/
def litAtoms (lit : String) : List Atom := lit.toList.map (fun c => Atom.req (fun x => x = c))

def isCharIn (cs : List Char) (c : Char) : Bool := cs.contains c

/-! ## `FeatureExtractor` vocabularies (continued) -/

/-- `FeatureExtractor.ACTION_VERBS`. -/
def ACTION_VERBS : List String :=
  ["led", "managed", "directed", "supervised", "coordinated", "oversaw",
   "headed", "spearheaded", "orchestrated", "pioneered", "founded",
   "achieved", "accomplished", "attained", "exceeded", "surpassed", "earned",
   "won", "awarded", "recognized", "honored", "promoted",
   "created", "developed", "designed", "built", "established", "launched",
   "initiated", "introduced", "invented", "originated", "formulated",
   "improved", "enhanced", "optimized", "streamlined", "upgraded", "modernized",
   "revitalized", "transformed", "revolutionized", "restructured", "refined",
   "analyzed", "evaluated", "assessed", "researched", "investigated", "examined",
   "diagnosed", "identified", "discovered", "measured", "quantified",
   "presented", "communicated", "negotiated", "persuaded", "influenced", "advocated",
   "collaborated", "partnered", "liaised", "consulted", "mentored", "trained",
   "implemented", "deployed", "integrated", "automated", "engineered", "programmed",
   "architected", "configured", "migrated", "scaled", "debugged", "tested",
   "increased", "decreased", "reduced", "generated", "delivered", "executed",
   "accelerated", "expanded", "consolidated", "maximized", "minimized"]

/-- `FeatureExtractor.SECTION_KEYWORDS`. -/
def SECTION_KEYWORDS : List (String × List String) :=
  [("summary", ["summary", "profile", "objective", "about", "overview", "introduction"]),
   ("experience", ["experience", "employment", "work history", "professional experience",
                   "career history", "relevant experience"]),
   ("education", ["education", "academic", "qualification", "degree", "university",
                  "college", "school"]),
   ("skills", ["skills", "technical skills", "competencies", "expertise", "proficiencies",
               "technologies", "tools"]),
   ("projects", ["projects", "portfolio", "key projects", "personal projects"]),
   ("certifications", ["certifications", "certificates", "licenses", "credentials",
                       "professional development"])]

/-- `FeatureExtractor.JOB_TITLES`. -/
def JOB_TITLES : List String :=
  ["engineer", "developer", "programmer", "architect", "analyst", "scientist",
   "manager", "director", "vp", "vice president", "lead", "principal",
   "senior", "junior", "staff", "intern", "associate", "consultant",
   "specialist", "coordinator", "administrator", "executive", "officer",
   "head", "chief", "cto", "ceo", "cfo", "coo", "cio", "founder", "co-founder"]

/-! ## `FeatureExtractor` helpers: counting and boolean features -/

/-- `_count_words`: `len(re.findall(r'\b\w+\b', text))` — every maximal run
of word characters is bounded by word boundaries, so the count is the number
of maximal word-character runs. -/
def countWords (s : List Char) : Nat := (runsWithCtx isWordChar none s).length

def isSentEnd (c : Char) : Bool := c = '.' || c = '!' || c = '?'

/-- `re.split(r'[.!?]+(?:\s|$)', text)`: the separator is a maximal run of
terminal punctuation followed by one whitespace character (consumed) or the
end of the text; a punctuation run followed by anything else stays inside
its fragment (no shorter sub-run can complete the pattern, and `$` only
fires at the true end here because a trailing newline is taken by `\s`). -/
def splitSentencesF : Nat → List Char → List Char → List (List Char)
  | 0, acc, _ => [acc.reverse]
  | fuel + 1, acc, s =>
    match s with
    | [] => [acc.reverse]
    | c :: cs =>
      if isSentEnd c then
        let run := cs.takeWhile isSentEnd
        let rest := cs.dropWhile isSentEnd
        if rest.isEmpty then [acc.reverse, []]
        else if isWsChar (rest.headD ' ') then
          acc.reverse :: splitSentencesF fuel [] rest.tail
        else splitSentencesF fuel (run.reverse ++ c :: acc) rest
      else
        splitSentencesF fuel (c :: acc) cs

/-- Structural recursion on `fuel`, set by the caller to the text length:
each step continues on a strict or weak tail of `cs`, so the fuel never runs
out before the text does. -/
def splitSentencesAux (acc : List Char) (s : List Char) : List (List Char) :=
  splitSentencesF s.length acc s

/-- Python `str.strip()` (ASCII whitespace core). -/
def stripWs (s : List Char) : List Char :=
  ((s.dropWhile isWsChar).reverse.dropWhile isWsChar).reverse

/-- `_count_sentences`: fragments of the split whose stripped length
exceeds 10. -/
def countSentences (s : List Char) : Nat :=
  ((splitSentencesAux [] s).filter (fun f => 10 < (stripWs f).length)).length

/-- `_has_section`: some keyword of the section occurs with word boundaries
(the pattern's trailing `\s*[:\n]?` can match the empty string, so it never
constrains search existence). -/
def hasSectionKws (kws : List String) (text : List Char) : Bool :=
  kws.any (fun k => boundedLit k.toList text)

def hasSection (text : List Char) (sec : String) : Bool :=
  hasSectionKws (((SECTION_KEYWORDS.find? (fun p => p.1 = sec)).map Prod.snd).getD []) text

/-- `_count_sections`: one per section family with a matching keyword. -/
def countSections (text : List Char) : Nat :=
  (SECTION_KEYWORDS.filter (fun p => hasSectionKws p.2 text)).length

def emailLocalC (c : Char) : Bool :=
  isAlphaAZ c || isDigit09 c || c = '.' || c = '_' || c = '%' || c = '+' || c = '-'

def emailDomainC (c : Char) : Bool := isAlphaAZ c || isDigit09 c || c = '.' || c = '-'

/-- the source's TLD class `[A-Z|a-z]` (it literally contains `|`) -/
def tldC (c : Char) : Bool := isAlphaAZ c || c = '|'

/-- `_has_email`: `\b[A-Za-z0-9._%+-]+@[A-Za-z0-9.-]+\.[A-Z|a-z]{2,}\b`. -/
def hasEmail (text : List Char) : Bool :=
  seqSearch
    ([Atom.bdry, Atom.plus emailLocalC, Atom.req (fun c => c = '@'),
      Atom.plus emailDomainC, Atom.req (fun c => c = '.'),
      Atom.req tldC, Atom.plus tldC, Atom.bdry]) text

def phoneSepC (c : Char) : Bool := c = '-' || c = '.' || isWsChar c

/-- `_has_phone`, first pattern
`(\+?\d{1,3}[-.\s]?)?\(?\d{3}\)?[-.\s]?\d{3}[-.\s]?\d{4}`: a leading
optional group never affects search existence, so it is dropped. -/
def phoneAtoms1 : List Atom :=
  [Atom.opt (fun c => c = '('), Atom.req isDigit09, Atom.req isDigit09, Atom.req isDigit09,
   Atom.opt (fun c => c = ')'), Atom.opt phoneSepC,
   Atom.req isDigit09, Atom.req isDigit09, Atom.req isDigit09, Atom.opt phoneSepC,
   Atom.req isDigit09, Atom.req isDigit09, Atom.req isDigit09, Atom.req isDigit09]

/-- `\+\d{10,14}` (trailing optional repetitions dropped: they never affect
search existence). -/
def phoneAtoms2 : List Atom :=
  Atom.req (fun c => c = '+') :: List.replicate 10 (Atom.req isDigit09)

/-- `\d{3}[-.\s]\d{3}[-.\s]\d{4}` -/
def phoneAtoms3 : List Atom :=
  [Atom.req isDigit09, Atom.req isDigit09, Atom.req isDigit09, Atom.req phoneSepC,
   Atom.req isDigit09, Atom.req isDigit09, Atom.req isDigit09, Atom.req phoneSepC,
   Atom.req isDigit09, Atom.req isDigit09, Atom.req isDigit09, Atom.req isDigit09]

/-- `_has_phone`. -/
def hasPhone (text : List Char) : Bool :=
  seqSearch phoneAtoms1 text || seqSearch phoneAtoms2 text || seqSearch phoneAtoms3 text

/-- `_has_linkedin`: literal substring probes. -/
def hasLinkedin (text : List Char) : Bool :=
  ["linkedin.com", "linkedin:", "/in/", "linkedin"].any (fun p => hasLit p.toList text)

/-- `_has_github`: literal substring probes. -/
def hasGithub (text : List Char) : Bool :=
  ["github.com", "github:", "github.io", "github"].any (fun p => hasLit p.toList text)

def endsWithLit (suffix : List Char) (w : List Char) : Bool :=
  headLit suffix.reverse w.reverse

/-- `_count_action_verbs`: vocabulary membership, or membership of the stem
after stripping a trailing `ed`/`ing`. -/
def countActionVerbs (text : List Char) : Nat :=
  ((runsWithCtx isWordChar none text).map (fun t => t.2.1)).countP (fun w =>
    let str := String.mk w
    ACTION_VERBS.contains str
      || (endsWithLit ['e', 'd'] w
            && ACTION_VERBS.contains (String.mk (w.take (w.length - 2))))
      || (endsWithLit ['i', 'n', 'g'] w
            && ACTION_VERBS.contains (String.mk (w.take (w.length - 3)))))

/-! ## `re.findall` scanners

`findall` collects non-overlapping matches left to right: find the leftmost
match, emit it, resume after its end (advancing one character on an empty
match).  `scanCountB` counts matches; `scanCapsB` collects one captured
value per match.  `matchAt` receives the character before the current
position (for patterns starting with `\b`) and returns the length of the
backtracking-preferred match at this position, if any. -/

def scanCountF (matchAt : Option Char → List Char → Option Nat) :
    Nat → Option Char → List Char → Nat
  | 0, _, _ => 0
  | fuel + 1, prev, s =>
    match s with
    | [] => 0
    | c :: cs =>
      match matchAt prev (c :: cs) with
      | none => scanCountF matchAt fuel (some c) cs
      | some n =>
        let k := max n 1
        1 + scanCountF matchAt fuel ((c :: cs).take k).getLast? ((c :: cs).drop k)

/-- Structural recursion on `fuel`, set to the text length by the wrapper:
every step advances by at least one character. -/
def scanCountB (matchAt : Option Char → List Char → Option Nat)
    (prev : Option Char) (s : List Char) : Nat :=
  scanCountF matchAt s.length prev s

def scanCapsF (matchAt : Option Char → List Char → Option (Nat × ℤ)) :
    Nat → Option Char → List Char → List ℤ
  | 0, _, _ => []
  | fuel + 1, prev, s =>
    match s with
    | [] => []
    | c :: cs =>
      match matchAt prev (c :: cs) with
      | none => scanCapsF matchAt fuel (some c) cs
      | some (n, v) =>
        let k := max n 1
        v :: scanCapsF matchAt fuel ((c :: cs).take k).getLast? ((c :: cs).drop k)

/-- Structural recursion on `fuel`, set to the text length by the wrapper:
every step advances by at least one character. -/
def scanCapsB (matchAt : Option Char → List Char → Option (Nat × ℤ))
    (prev : Option Char) (s : List Char) : List ℤ :=
  scanCapsF matchAt s.length prev s

def digitRun (s : List Char) : List Char := s.takeWhile isDigit09

def natOfDigits (ds : List Char) : Nat :=
  ds.foldl (fun acc c => 10 * acc + (c.toNat - 48)) 0

/-- First alternative of an ordered alternation that matches at the head of
`s`, returning its length (the greedy `s?` forms are listed long-form
first). -/
def firstLit (alts : List String) (s : List Char) : Option Nat :=
  match alts with
  | [] => none
  | a :: rest => if headLit a.toList s then some a.toList.length else firstLit rest s

/-! ## `_count_quantifiable_metrics` (feature_extraction.py lines 243-261):
the eight pattern families, compiled to `matchAt` functions.  Each `\d+` is
greedy over a maximal digit run: a shorter run would be followed by another
digit, which none of the subsequent pattern parts accepts, so backtracking
cannot produce a different match. -/

def kmbC (c : Char) : Bool := c = 'k' || c = 'm' || c = 'b'

/-- `\d+%` -/
def matchPct (_ : Option Char) (s : List Char) : Option Nat :=
  let r := (digitRun s).length
  if r = 0 then none
  else if (s.drop r).head? = some '%' then some (r + 1) else none

/-- `\$[\d,]+[kmb]?` -/
def matchMoney (_ : Option Char) (s : List Char) : Option Nat :=
  match s with
  | '$' :: t =>
    let r := (t.takeWhile (fun c => isDigit09 c || c = ',')).length
    if r = 0 then none
    else
      match (t.drop r).head? with
      | some c => if kmbC c then some (1 + r + 1) else some (1 + r)
      | none => some (1 + r)
  | _ => none

/-- `\d+[kmb]\+?` -/
def matchKmb (_ : Option Char) (s : List Char) : Option Nat :=
  let r := (digitRun s).length
  if r = 0 then none
  else
    match (s.drop r).head? with
    | some c =>
      if kmbC c then
        some (r + 1 + (if (s.drop (r + 1)).head? = some '+' then 1 else 0))
      else none
    | none => none

/-- `\d+\+` -/
def matchNumPlus (_ : Option Char) (s : List Char) : Option Nat :=
  let r := (digitRun s).length
  if r = 0 then none
  else if (s.drop r).head? = some '+' then some (r + 1) else none

/-- `\d+x` -/
def matchNumX (_ : Option Char) (s : List Char) : Option Nat :=
  let r := (digitRun s).length
  if r = 0 then none
  else if (s.drop r).head? = some 'x' then some (r + 1) else none

/-- `\d+\s*(?:<alts>)`: digits, optional whitespace, one of the ordered
alternatives. -/
def matchNumWord (alts : List String) (_ : Option Char) (s : List Char) : Option Nat :=
  let r := (digitRun s).length
  if r = 0 then none
  else
    let t := s.drop r
    let w := (t.takeWhile isWsChar).length
    match firstLit alts (t.drop w) with
    | some n => some (r + w + n)
    | none => none

/-- `(?:users?|customers?|clients?|people|team|engineers?|members?)` -/
def nounAlts : List String :=
  ["users", "user", "customers", "customer", "clients", "client",
   "people", "team", "engineers", "engineer", "members", "member"]

/-- `(?:years?|months?|weeks?|days?|hours?)` -/
def durAlts : List String :=
  ["years", "year", "months", "month", "weeks", "week",
   "days", "day", "hours", "hour"]

/-- `(?:increased?|decreased?|reduced?|improved?|grew?|saved?)`
(`grew?` is literally `gre` plus optional `w`). -/
def verbAlts : List String :=
  ["increased", "increase", "decreased", "decrease", "reduced", "reduce",
   "improved", "improve", "grew", "gre", "saved", "save"]

/-- The lazy `.*?\d+` tail: skip to the first digit without crossing a
newline (`.` does not match `\n` here), then take the maximal digit run.
Returns (characters skipped, digit-run length). -/
def scanToDigit : List Char → Option (Nat × Nat)
  | [] => none
  | c :: cs =>
    if isDigit09 c then some (0, 1 + (digitRun cs).length)
    else if c = '\n' then none
    else
      match scanToDigit cs with
      | none => none
      | some p => some (p.1 + 1, p.2)

/-- `(?:increased?|…|saved?).*?\d+` -/
def matchVerbNum (_ : Option Char) (s : List Char) : Option Nat :=
  match firstLit verbAlts s with
  | none => none
  | some v =>
    match scanToDigit (s.drop v) with
    | none => none
    | some p => some (v + p.1 + p.2)

/-- `_count_quantifiable_metrics`: occurrences summed across the eight
families, capped at 50.  All families are searched with `re.IGNORECASE`,
realised by lower-casing the text (the patterns' literals are lower case). -/
def countQuantifiableMetrics (text : List Char) : Nat :=
  let l := lowerL text
  let total :=
    scanCountB matchPct none l + scanCountB matchMoney none l
      + scanCountB matchKmb none l + scanCountB matchNumPlus none l
      + scanCountB matchNumX none l + scanCountB (matchNumWord nounAlts) none l
      + scanCountB matchVerbNum none l + scanCountB (matchNumWord durAlts) none l
  min total 50

/-! ## `_count_bullet_points`, `_count_technical_terms` -/

def bulletGlyphs : List Char := ['•', '●', '○', '▪', '▸', '►', '◆', '◇', '■', '□']

/-- `_count_bullet_points`: bullet glyph occurrences plus lines whose
stripped content starts with `-` or `*`. -/
def countBulletPoints (text : List Char) : Nat :=
  (bulletGlyphs.map (fun ch => countChar ch text)).sum
    + ((text.splitOn '\n').countP (fun line =>
        match stripWs line with
        | [] => false
        | c :: _ => c = '-' || c = '*'))

def techWordClassC (c : Char) : Bool := isWordChar c || c = '.' || c = '#' || c = '+'

/-- The single match `findall(r'\b[\w.#+]+\b')` produces inside a maximal
`[\w.#+]`-run: from its first to its last word character (the greedy run
backtracks to the last word character so that the trailing `\b` holds, and
the leftmost viable start is the first word character). -/
def tokenOfRun (run : List Char) : List Char :=
  ((run.dropWhile (fun c => !isWordChar c)).reverse.dropWhile (fun c => !isWordChar c)).reverse

/-- `set(re.findall(r'\b[\w.#+]+\b', text))`. -/
def techTermsSet (text : List Char) : Finset String :=
  ((runsWithCtx techWordClassC none text).filterMap (fun t =>
    let tok := tokenOfRun t.2.1
    if tok.isEmpty then none else some (String.mk tok))).toFinset

/-- `word.replace('.', '')` -/
def removeDots (w : String) : String := String.mk (w.toList.filter (fun c => c ≠ '.'))

/-- `_count_technical_terms`: distinct tokens that are in the technical
vocabulary as-is or with dots stripped. -/
def countTechnicalTerms (text : List Char) : Nat :=
  ((techTermsSet text).filter (fun w =>
    (TECH_SKILLS.contains w || TECH_SKILLS.contains (removeDots w)) = true)).card

/-! ## `_extract_years_experience` (feature_extraction.py lines 286-320) -/

/-- `(?:years?|yrs?)` -/
def yearWordAlts : List String := ["years", "year", "yrs", "yr"]

/-- `(\d+)\+?\s*(?:years?|yrs?)\s*(?:of)?\s*(?:experience|exp)?`, capturing
the digits.  The optional tail parts only extend the match end; since the
whole tail is optional, the greedy engine consumes them left to right and
never backtracks. -/
def matchYears1 (_ : Option Char) (s : List Char) : Option (Nat × ℤ) :=
  let ds := digitRun s
  if ds.isEmpty then none
  else
    let r := ds.length
    let t1 := s.drop r
    let plusLen := if t1.head? = some '+' then 1 else 0
    let t2 := t1.drop plusLen
    let w1 := (t2.takeWhile isWsChar).length
    match firstLit yearWordAlts (t2.drop w1) with
    | none => none
    | some y =>
      let t3 := t2.drop (w1 + y)
      let w2 := (t3.takeWhile isWsChar).length
      let t4 := t3.drop w2
      let ofLen := if headLit ['o', 'f'] t4 then 2 else 0
      let t5 := t4.drop ofLen
      let w3 := (t5.takeWhile isWsChar).length
      let e := (firstLit ["experience", "exp"] (t5.drop w3)).getD 0
      some (r + plusLen + w1 + y + w2 + ofLen + w3 + e, (natOfDigits ds : ℤ))

/-- `(\d+)\s*-\s*(\d+)\s*(?:years?|yrs?)`; the source keeps the second
captured group (`match[-1]`). -/
def matchYears2 (_ : Option Char) (s : List Char) : Option (Nat × ℤ) :=
  let ds1 := digitRun s
  if ds1.isEmpty then none
  else
    let t1 := s.drop ds1.length
    let w1 := (t1.takeWhile isWsChar).length
    let t2 := t1.drop w1
    if t2.head? = some '-' then
      let t3 := t2.drop 1
      let w2 := (t3.takeWhile isWsChar).length
      let t4 := t3.drop w2
      let ds2 := digitRun t4
      if ds2.isEmpty then none
      else
        let t5 := t4.drop ds2.length
        let w3 := (t5.takeWhile isWsChar).length
        match firstLit yearWordAlts (t5.drop w3) with
        | none => none
        | some y =>
          some (ds1.length + w1 + 1 + w2 + ds2.length + w3 + y, (natOfDigits ds2 : ℤ))
    else none

/-- `over\s*(\d+)\s*(?:years?|yrs?)` (no word boundary: `over` may occur
inside a longer word). -/
def matchYears3 (_ : Option Char) (s : List Char) : Option (Nat × ℤ) :=
  if headLit ['o', 'v', 'e', 'r'] s then
    let t1 := s.drop 4
    let w1 := (t1.takeWhile isWsChar).length
    let t2 := t1.drop w1
    let ds := digitRun t2
    if ds.isEmpty then none
    else
      let t3 := t2.drop ds.length
      let w2 := (t3.takeWhile isWsChar).length
      match firstLit yearWordAlts (t3.drop w2) with
      | none => none
      | some y => some (4 + w1 + ds.length + w2 + y, (natOfDigits ds : ℤ))
  else none

/-- `(20\d{2})\s*[-–]\s*(20\d{2}|present|current)`: the captured pair is
turned into `end_year - start_year`, with `present`/`current` read as the
source's fixed reference year 2025. -/
def matchDateRange (_ : Option Char) (s : List Char) : Option (Nat × ℤ) :=
  match s with
  | '2' :: '0' :: a :: b :: t =>
    if isDigit09 a && isDigit09 b then
      let startY : ℤ := natOfDigits ['2', '0', a, b]
      let w1 := (t.takeWhile isWsChar).length
      let t1 := t.drop w1
      match t1.head? with
      | some sep =>
        if sep = '-' || sep = '–' then
          let t2 := t1.drop 1
          let w2 := (t2.takeWhile isWsChar).length
          let t3 := t2.drop w2
          let endAlt : Option (Nat × ℤ) :=
            match t3 with
            | '2' :: '0' :: x :: y :: _ =>
              if isDigit09 x && isDigit09 y then
                some (4, (natOfDigits ['2', '0', x, y] : ℤ))
              else if headLit "present".toList t3 || headLit "current".toList t3 then
                some (7, 2025)
              else none
            | _ =>
              if headLit "present".toList t3 || headLit "current".toList t3 then
                some (7, 2025)
              else none
          match endAlt with
          | some (n, endY) => some (4 + w1 + 1 + w2 + n, endY - startY)
          | none => none
        else none
      | none => none
    else none
  | _ => none

/-- `_extract_years_experience`: the maximum over all candidates from the
three explicit patterns and the date ranges, `0` if there are none.  All
four `findall`s use `re.IGNORECASE`, realised by lower-casing the text. -/
def extractYearsExperience (text : List Char) : ℤ :=
  let l := lowerL text
  let cands :=
    scanCapsB matchYears1 none l ++ scanCapsB matchYears2 none l
      ++ scanCapsB matchYears3 none l ++ scanCapsB matchDateRange none l
  match cands.max? with
  | some m => m
  | none => 0

/-! ## `_count_jobs`, `_has_job_titles` -/

/-- `(?:at|@)\s+[A-Z][a-zA-Z]+` (searched with `re.IGNORECASE`, so `[A-Z]`
is any letter). -/
def matchAtCompany (_ : Option Char) (s : List Char) : Option Nat :=
  let alen : Option Nat :=
    if headLit ['a', 't'] s then some 2
    else if s.head? = some '@' then some 1
    else none
  match alen with
  | none => none
  | some a =>
    let t := s.drop a
    let w := (t.takeWhile isWsChar).length
    if w = 0 then none
    else
      match t.drop w with
      | c :: rest =>
        if isAlphaAZ c then
          let r := (rest.takeWhile isAlphaAZ).length
          if r = 0 then none else some (a + w + 1 + r)
        else none
      | [] => none

/-- `_count_jobs`: `max` of the two `findall` counts, half the number of
job-title vocabulary hits, and 1. -/
def countJobs (text : List Char) : Nat :=
  let l := lowerL text
  let cnt := (scanCapsB matchDateRange none l).length + scanCountB matchAtCompany none l
  let titleMatches := JOB_TITLES.countP (fun t => hasLit t.toList text)
  max cnt (max (titleMatches / 2) 1)

/-- `_has_job_titles`: two compound patterns (with `re.IGNORECASE`), then a
plain substring probe over the vocabulary. -/
def hasJobTitles (text : List Char) : Bool :=
  let l := lowerL text
  (["senior", "junior", "lead", "principal", "staff"].any (fun a =>
    ["engineer", "developer", "manager"].any (fun b =>
      seqSearch (litAtoms a
        ++ [Atom.plus isWsChar, Atom.plus isWordChar, Atom.plus isWsChar]
        ++ litAtoms b) l)))
  || (["software", "data", "product", "project", "engineering"].any (fun a =>
    ["engineer", "developer", "manager", "analyst"].any (fun b =>
      seqSearch (litAtoms a ++ [Atom.plus isWsChar] ++ litAtoms b) l)))
  || JOB_TITLES.any (fun t => hasLit t.toList text)

/-! ## `_get_degree_level`, `_has_gpa` -/

def apoS : String := String.mk [apoC]

/-- The five pattern tiers of `_get_degree_level`, each regex replaced by
the finite list of its expansions (each `\.?`, `'?`, `s?` resolved both
ways); a tier fires when some expansion occurs with word boundaries. -/
def degreePatterns : List (Nat × List String) :=
  [(5, ["phd", "ph.d", "doctorate", "doctoral"]),
   (4, ["master", "master" ++ apoS, "masters", "master" ++ apoS ++ "s",
        "ms", "m.s", "ms.", "m.s.", "ma", "m.a", "ma.", "m.a.", "mba", "meng", "m.eng"]),
   (3, ["bachelor", "bachelor" ++ apoS, "bachelors", "bachelor" ++ apoS ++ "s",
        "bs", "b.s", "bs.", "b.s.", "ba", "b.a", "ba.", "b.a.", "beng", "b.eng",
        "undergraduate"]),
   (2, ["associate", "diploma", "as", "a.s", "as.", "a.s.", "aa", "a.a", "aa.", "a.a."]),
   (1, ["high school", "ged", "secondary"])]

/-- Does some pattern of a tier match (word-bounded) in the text? -/
def tierAnyMatch (pats : List String) (l : List Char) : Bool :=
  pats.any (fun e => boundedLit e.toList l)

/-- `_get_degree_level` (feature_extraction.py lines 357-371): first tier
with a matching pattern wins, `0` otherwise. -/
def getDegreeLevel (text : List Char) : Nat :=
  let l := lowerL text
  match degreePatterns.find? (fun t => tierAnyMatch t.2 l) with
  | some t => t.1
  | none => 0

/-- `_has_gpa`: the four GPA patterns. -/
def hasGpa (text : List Char) : Bool :=
  let l := lowerL text
  boundedLit ['g', 'p', 'a'] l
    || seqSearch (litAtoms "grade" ++ [Atom.star isWsChar] ++ litAtoms "point"
        ++ [Atom.star isWsChar] ++ litAtoms "average") l
    || seqSearch ([Atom.req isDigit09, Atom.req (fun c => c = '.'), Atom.plus isDigit09,
        Atom.star isWsChar, Atom.req (fun c => c = '/'), Atom.star isWsChar]
        ++ litAtoms "4.0") l
    || seqSearch ([Atom.req (fun c => c = '3' || c = '4'), Atom.req (fun c => c = '.'),
        Atom.req isDigit09, Atom.opt isDigit09, Atom.star isWsChar]
        ++ litAtoms "gpa") l

/-! ## `_count_skills` (feature_extraction.py lines 386-405) -/

/-- The preferred length of `(?:skills?|technologies|tools|competenc)` at
the head of `s` (alternation order, greedy `s?`). -/
def skillsKwLen (s : List Char) : Option Nat :=
  if headLit "skills".toList s then some 6
  else if headLit "skill".toList s then some 5
  else if headLit "technologies".toList s then some 12
  else if headLit "tools".toList s then some 5
  else if headLit "competenc".toList s then some 9
  else none

/-- Leftmost start of the skills-section regex: offset and keyword length. -/
def skillsStart : List Char → Option (Nat × Nat)
  | [] => none
  | c :: cs =>
    match skillsKwLen (c :: cs) with
    | some n => some (0, n)
    | none => (skillsStart cs).map (fun p => (p.1 + 1, p.2))

/-- The lazy `.*?(?=\n\n|\n[A-Z]|\Z)` tail (with `re.DOTALL` and
`re.IGNORECASE`): extend minimally until a newline followed by a newline or
a letter, or the end of the text. -/
def sectionEndOff : List Char → Nat
  | [] => 0
  | c :: cs =>
    if c = '\n'
        && (match cs.head? with
            | some n => n = '\n' || isAlphaAZ n
            | none => false)
    then 0
    else 1 + sectionEndOff cs

/-- `[•●○▪-]\s*\w+` -/
def matchListItem (_ : Option Char) (s : List Char) : Option Nat :=
  match s with
  | c :: t =>
    if isCharIn ['•', '●', '○', '▪', '-'] c then
      let w := (t.takeWhile isWsChar).length
      let r := ((t.drop w).takeWhile isWordChar).length
      if r = 0 then none else some (1 + w + r)
    else none
  | [] => none

/-- `_count_skills`: technical-term count, improved by comma and list-item
counts within the skills-section excerpt, capped at 50. -/
def countSkills (text : List Char) : Nat :=
  let techCount := countTechnicalTerms text
  let l := lowerL text
  match skillsStart l with
  | none => min techCount 50
  | some (i, n) =>
    let endOff := sectionEndOff (l.drop (i + n))
    let sec := (text.drop i).take (n + endOff)
    let commaCount := countChar ',' sec + 1
    let listItems := scanCountB matchListItem none sec
    min (max techCount (max commaCount listItems)) 50

/-! ## `_count_programming_languages`, formatting, readability -/

/-- The language vocabulary of `_count_programming_languages`. -/
def PROG_LANGS : List String :=
  ["python", "java", "javascript", "typescript", "c++", "c#", "ruby",
   "php", "swift", "kotlin", "go", "golang", "rust", "scala", "r",
   "matlab", "perl", "objective-c", "dart", "lua", "haskell", "clojure",
   "elixir", "f#", "groovy", "julia", "cobol", "fortran", "assembly"]

/-- `\bc\b(?!\+\+|#)`: a word-bounded `c` not followed by `++` or `#`. -/
def cBareAt : Option Char → List Char → Bool
  | _, [] => false
  | prev, c :: cs =>
    (c = 'c' && boundaryOk prev (some c) && boundaryOk (some c) cs.head?
      && !headLit ['+', '+'] cs && !headLit ['#'] cs)
    || cBareAt (some c) cs

/-- `_count_programming_languages` (feature_extraction.py lines 407-429). -/
def countProgrammingLanguages (text : List Char) : Nat :=
  let tl := lowerL text
  PROG_LANGS.countP (fun lang => boundedLit lang.toList tl)
    + (if cBareAt none tl then 1 else 0)

/-- `\b\d{4}\s*[-–]\s*(?:\d{4}|present|current)\b` (with `re.IGNORECASE`).
`\d{4}` takes exactly four digits: a fifth digit makes the separator (resp.
the final `\b`) fail with no backtracking alternative. -/
def matchDateA (prev : Option Char) (s : List Char) : Option Nat :=
  if !boundaryOk prev s.head? then none
  else
    let ds := digitRun s
    if ds.length < 4 then none
    else
      let t := s.drop 4
      let w1 := (t.takeWhile isWsChar).length
      let t1 := t.drop w1
      match t1.head? with
      | some sep =>
        if sep = '-' || sep = '–' then
          let t2 := t1.drop 1
          let w2 := (t2.takeWhile isWsChar).length
          let t3 := t2.drop w2
          let dr := digitRun t3
          if 4 ≤ dr.length then
            if dr.length = 4 && !isOptWordChar (t3.drop 4).head? then
              some (4 + w1 + 1 + w2 + 4)
            else none
          else if headLit "present".toList t3 then
            if !isOptWordChar (t3.drop 7).head? then some (4 + w1 + 1 + w2 + 7) else none
          else if headLit "current".toList t3 then
            if !isOptWordChar (t3.drop 7).head? then some (4 + w1 + 1 + w2 + 7) else none
          else none
        else none
      | none => none

/-- `(?:jan|feb|mar|apr|may|jun|jul|aug|sep|oct|nov|dec)` -/
def monthAlts : List String :=
  ["jan", "feb", "mar", "apr", "may", "jun", "jul", "aug", "sep", "oct", "nov", "dec"]

/-- `\b(?:jan|…|dec)\w*\s+\d{4}\b` (with `re.IGNORECASE`). -/
def matchDateB (prev : Option Char) (s : List Char) : Option Nat :=
  if !boundaryOk prev s.head? then none
  else
    match firstLit monthAlts s with
    | none => none
    | some m =>
      let t := s.drop m
      let w := (t.takeWhile isWordChar).length
      let t1 := t.drop w
      let ws := (t1.takeWhile isWsChar).length
      if ws = 0 then none
      else
        let t2 := t1.drop ws
        let dr := digitRun t2
        if dr.length = 4 && !isOptWordChar (t2.drop 4).head? then
          some (m + w + ws + 4)
        else none

/-- `_check_consistent_formatting` (feature_extraction.py lines 444-461). -/
def checkConsistentFormatting (text : List Char) : Bool :=
  let l := lowerL text
  let dateA := scanCountB matchDateA none l
  let dateB := scanCountB matchDateB none l
  let bulletTypes :=
    (if 2 < countChar '•' text then 1 else 0)
      + (if 2 < countChar '●' text then 1 else 0)
      + (if 5 < countChar '-' text then 1 else 0)
      + (if 2 < countChar '*' text then 1 else 0)
  decide (2 ≤ max dateA dateB) && decide (bulletTypes ≤ 2)

/-- `_get_readability_score`: `textstat.flesch_reading_ease` is an external
library call, modelled by `flesch` (`none` = the call raised); the source
clamps the result to `[20, 100]` and falls back to `60` on failure. -/
def getReadabilityScore (flesch : Option ℚ) : ℚ :=
  match flesch with
  | some sc => max 20 (min 100 sc)
  | none => 60

/-- `_check_length`. -/
def checkLength (wordCount : Nat) : Bool := 250 ≤ wordCount && wordCount ≤ 900

/-! ## `FeatureExtractor.extract_features` (feature_extraction.py lines 97-167) -/

/-- The 31-field feature vector produced by `extract_features`, with the
semantic types of the source's values (counts as `Nat`, Python floats as
`ℚ`, flags as `Bool`, years as `ℤ` since a reversed date range can be
negative). -/
structure Features where
  total_words : Nat
  total_sentences : Nat
  total_characters : Nat
  avg_word_length : ℚ
  avg_sentence_length : ℚ
  total_sections : Nat
  has_summary : Bool
  has_experience : Bool
  has_education : Bool
  has_skills : Bool
  has_projects : Bool
  has_certifications : Bool
  has_email : Bool
  has_phone : Bool
  has_linkedin : Bool
  has_github : Bool
  action_verb_count : Nat
  quantifiable_metrics : Nat
  bullet_point_count : Nat
  technical_terms_count : Nat
  years_of_experience : ℤ
  number_of_jobs : Nat
  has_job_titles : Bool
  degree_level : Nat
  has_gpa : Bool
  total_skills_mentioned : Nat
  programming_languages : Nat
  readability_score : ℚ
  appropriate_length : Bool
  consistent_formatting : Bool
  keyword_match_score : ℚ
deriving DecidableEq

/-- `FeatureExtractor.extract_features`.  `flesch` is the outcome of the
external `textstat.flesch_reading_ease(original_text)` call (`none` = the
call raised, which the source catches). -/
def extractFeatures (resumeText : String) (jobDescription : Option String)
    (flesch : Option ℚ) : Features :=
  let text := lowerL resumeText.toList
  let originalText := resumeText.toList
  let wordCount := countWords text
  let sentenceCount := countSentences text
  let charCount := originalText.length
  { total_words := wordCount
    total_sentences := sentenceCount
    total_characters := charCount
    avg_word_length := pyRound ((charCount : ℚ) / ((max wordCount 1 : Nat) : ℚ) / 1.2) 2
    avg_sentence_length := pyRound ((wordCount : ℚ) / ((max sentenceCount 1 : Nat) : ℚ)) 2
    total_sections := countSections text
    has_summary := hasSection text "summary"
    has_experience := hasSection text "experience"
    has_education := hasSection text "education"
    has_skills := hasSection text "skills"
    has_projects := hasSection text "projects"
    has_certifications := hasSection text "certifications"
    has_email := hasEmail text
    has_phone := hasPhone text
    has_linkedin := hasLinkedin text
    has_github := hasGithub text
    action_verb_count := countActionVerbs text
    quantifiable_metrics := countQuantifiableMetrics text
    bullet_point_count := countBulletPoints originalText
    technical_terms_count := countTechnicalTerms text
    years_of_experience := extractYearsExperience text
    number_of_jobs := countJobs text
    has_job_titles := hasJobTitles text
    degree_level := getDegreeLevel text
    has_gpa := hasGpa text
    total_skills_mentioned := countSkills text
    programming_languages := countProgrammingLanguages text
    readability_score := getReadabilityScore flesch
    appropriate_length := checkLength wordCount
    consistent_formatting := checkConsistentFormatting originalText
    keyword_match_score := calculateKeywordMatch (String.mk text) jobDescription }

/-! ## Claim theorems -/

/-- Claim C10: score prediction never raises — when the model path fails at
any step (modelled by `modelOutcome = none`), or when no model is loaded,
the complete rule-based fallback result is returned, with confidence `0.7`
and model version `fallback-1.0.0`, identical in both cases. -/
theorem predict_fallback_on_error (d : FeatureDict) (loaded : Bool)
    (pr conf : Option ℚ) (ver : Option String) :
    predictAtsScore loaded none conf ver d = fallbackPrediction d
    ∧ predictAtsScore false pr conf ver d = fallbackPrediction d
    ∧ (fallbackPrediction d).confidence = 0.7
    ∧ (fallbackPrediction d).model_version = "fallback-1.0.0" := by
  refine ⟨?_, ?_, rfl, rfl⟩
  · cases loaded <;> simp [predictAtsScore]
  · simp [predictAtsScore]

/-- Claim C9: for every feature dictionary, the serialization
`_features_to_array` returns exactly 31 floats, in the fixed feature order,
a missing field contributing `0.0` and a boolean field exactly `1.0`/`0.0`. -/
theorem features_to_array_spec (d : FeatureDict) :
    featureOrder.length = 31
    ∧ (featuresToArray d).length = 31
    ∧ featuresToArray d = featureOrder.map (fun name =>
        match dictGet d name with
        | none => 0
        | some (FVal.num q) => q
        | some (FVal.boolVal b) => if b then 1 else 0) := by
  refine ⟨by decide, by simp [featuresToArray]; decide, ?_⟩
  unfold featuresToArray
  apply List.map_congr_left
  intro name _
  unfold pyFloatEntry FVal.toFloat
  cases dictGet d name with
  | none => rfl
  | some v => cases v <;> rfl

/-- The concrete feature dictionary of the claim-C2 counterexample. -/
def fbCexDict : FeatureDict :=
  { keyword_match_score := some (FVal.num 0)
    action_verb_count := some (FVal.num 1)
    quantifiable_metrics := some (FVal.num 0)
    years_of_experience := some (FVal.num 0)
    total_sections := some (FVal.num 0)
    has_summary := some (FVal.boolVal false)
    has_experience := some (FVal.boolVal false)
    total_skills_mentioned := some (FVal.num 0)
    appropriate_length := some (FVal.boolVal false)
    consistent_formatting := some (FVal.boolVal false)
    bullet_point_count := some (FVal.num 0) }

/-- The overall-score formula exactly as claim C2 states it (transcribed
from the spec's words, to be compared with the source-translated
`fallbackPrediction`): the clamp to `[0, 100]` of the weighted sum of the
five pre-capped sub-terms, with no rounding. -/
def fallbackClaimFormula (d : FeatureDict) : ℚ :=
  max 0 (min 100 (
    getNum d.keyword_match_score 50 * 0.30
    + 0.25 * min 100 (getNum d.action_verb_count 0 * 3
        + getNum d.quantifiable_metrics 0 * 4
        + min (getNum d.years_of_experience 0 * 8) 40)
    + 0.20 * min 100 (getNum d.total_sections 0 * 12
        + (if getTruthy d.has_summary then 10 else 0)
        + (if getTruthy d.has_experience then 20 else 0))
    + 0.15 * min 100 (getNum d.total_skills_mentioned 0 * 8)
    + 0.10 * min 100 ((if getTruthy d.appropriate_length then (50 : ℚ) else 20)
        + (if getTruthy d.consistent_formatting then 30 else 10)
        + (if getNum d.bullet_point_count 0 > 5 then 20 else 10))))

/-- Claim C2 (counterexample): at the concrete dictionary `fbCexDict` the
claimed overall score (the clamped weighted sum, 4.75) differs from the
returned `overall_score`, because the source rounds to one decimal
(half to even), giving 4.8. -/
theorem fallback_round_cex :
    fallbackClaimFormula fbCexDict = 4.75
    ∧ (fallbackPrediction fbCexDict).overall_score = 4.8
    ∧ (fallbackPrediction fbCexDict).overall_score ≠ fallbackClaimFormula fbCexDict := by
  have h : fallbackClaimFormula fbCexDict = 4.75 := by
    unfold fallbackClaimFormula fbCexDict
    norm_num [getNum, getTruthy, FVal.toFloat, FVal.truthy, min_def, max_def]
  have h2 : (fallbackPrediction fbCexDict).overall_score = 4.8 := by
    unfold fallbackPrediction fbCexDict
    norm_num [getNum, getTruthy, FVal.toFloat, FVal.truthy, min_def, max_def,
      pyRound, roundHalfEven]
  refine ⟨h, h2, by rw [h, h2]; norm_num⟩

/-- Claim C2 (amended): for every feature dictionary the rule-based
fallback scorer returns confidence exactly 0.7 and an overall score equal
to the claim's clamped weighted sum rounded half-to-even to one decimal
place. -/
theorem fallback_prediction_spec (d : FeatureDict) :
    (fallbackPrediction d).confidence = 0.7
    ∧ (fallbackPrediction d).overall_score = pyRound (fallbackClaimFormula d) 1 := by
  refine ⟨rfl, ?_⟩
  unfold fallbackPrediction fallbackClaimFormula
  dsimp only
  congr 1
  ring_nf



/-- Claim C4 (counterexample): with years = 20, number_of_jobs = 14 (which
triggers job hopping) and metrics = 10, the returned experience term is
23.55, while the unpenalized computation at the non-triggering job count 4
is capped at 25 — and 23.55 is not 0.75 x 25, so the experience term is not
0.75 times the unpenalized computation. -/
theorem job_hopping_ratio_cex :
    jobHoppingCond 20 14
    ∧ ¬ jobHoppingCond 20 4
    ∧ nonlinearExperienceScore 20 14 10 true = 23.55
    ∧ nonlinearExperienceScore 20 4 10 false = 25
    ∧ (23.55 : ℚ) ≠ 0.75 * 25 := by
  refine ⟨?_, ?_, ?_, ?_, by norm_num⟩
  · constructor <;> norm_num [jobHoppingCond]
  · norm_num [jobHoppingCond]
  · unfold nonlinearExperienceScore
    norm_num [min_def]
  · unfold nonlinearExperienceScore
    norm_num [min_def]

/-- Claim C4 (amended): when job hopping is triggered the experience term
equals `min 25 (0.75 x B)` where `B` is the pre-cap unpenalized accumulator;
the exact 0.75 ratio against an unpenalized run holds whenever the
comparison job count yields the same accumulator and the cap does not bind;
in particular years = 6 with number_of_jobs = 5 triggers the multiplier and
the term is exactly 0.75 times the unpenalized term at 4 jobs. -/
theorem job_hopping_multiplier :
    (∀ (years : ℚ) (numJobs metrics : ℤ), jobHoppingCond years numJobs →
        nonlinearExperienceScore years numJobs metrics true
          = min 25 (nlExpBase years numJobs metrics * 0.75))
    ∧ (∀ (j1 j2 metrics : ℤ) (years : ℚ),
        jobHoppingCond years j1 → ¬ jobHoppingCond years j2 →
        nlExpBase years j1 metrics = nlExpBase years j2 metrics →
        nlExpBase years j2 metrics ≤ 25 →
        nonlinearExperienceScore years j1 metrics true
          = 0.75 * nonlinearExperienceScore years j2 metrics false)
    ∧ jobHoppingCond 6 5
    ∧ ¬ jobHoppingCond 6 4
    ∧ (∀ m : ℤ, nonlinearExperienceScore 6 5 m true
        = 0.75 * nonlinearExperienceScore 6 4 m false) := by
  have hT : ∀ (y : ℚ) (j m : ℤ), nonlinearExperienceScore y j m true
      = min 25 (nlExpBase y j m * 0.75) := by
    intro y j m; simp [nonlinearExperienceScore, nlExpBase]
  have hF : ∀ (y : ℚ) (j m : ℤ), nonlinearExperienceScore y j m false
      = min 25 (nlExpBase y j m) := by
    intro y j m; simp [nonlinearExperienceScore, nlExpBase]
  refine ⟨?_, ?_, ?_, ?_, ?_⟩
  · intro years numJobs metrics _
    exact hT years numJobs metrics
  · intro j1 j2 metrics years _ _ heq hle
    rw [hT, hF, heq]
    rw [min_eq_right hle]
    rw [min_eq_right (by nlinarith : nlExpBase years j2 metrics * 0.75 ≤ 25)]
    ring
  · constructor <;> norm_num [jobHoppingCond]
  · norm_num [jobHoppingCond]
  · intro m
    rw [hT, hF]
    have h5 : nlExpBase 6 5 m = 18 + min 4 ((m : ℚ) * 0.4) := by
      unfold nlExpBase
      norm_num [min_def]
    have h4 : nlExpBase 6 4 m = 18 + min 4 ((m : ℚ) * 0.4) := by
      unfold nlExpBase
      norm_num [min_def]
    have hm : min (4:ℚ) ((m : ℚ) * 0.4) ≤ 4 := min_le_left _ _
    rw [h5, h4]
    rw [min_eq_right (by nlinarith : (18 + min 4 ((m : ℚ) * 0.4)) * 0.75 ≤ 25)]
    rw [min_eq_right (by nlinarith : (18 + min 4 ((m : ℚ) * 0.4)) ≤ 25)]
    ring


/-- Witness for `job_hopping_multiplier` at years = 6, jobs = 5 vs 4,
metrics = 2. -/
theorem job_hopping_multiplier_check :
    nonlinearExperienceScore 6 5 2 true = 14.1
    ∧ nonlinearExperienceScore 6 5 2 true = 0.75 * nonlinearExperienceScore 6 4 2 false
    ∧ nonlinearExperienceScore 6 4 2 false = 18.8 := by
  have h1 := job_hopping_multiplier.1 6 5 2 (by constructor <;> norm_num [jobHoppingCond])
  have h2 := job_hopping_multiplier.2.1 5 4 2 6
    (by constructor <;> norm_num [jobHoppingCond])
    (by norm_num [jobHoppingCond])
    (by unfold nlExpBase; norm_num)
    (by unfold nlExpBase; norm_num [min_def])
  have hv : nlExpBase 6 5 2 = 18.8 := by unfold nlExpBase; norm_num [min_def]
  have hv4 : nonlinearExperienceScore 6 4 2 false = 18.8 := by
    unfold nonlinearExperienceScore
    norm_num [min_def]
  refine ⟨?_, h2, hv4⟩
  rw [h1, hv]
  norm_num [min_def]


theorem priorityRank_trichotomy (p : String) :
    priorityRank p = 0 ∨ priorityRank p = 1 ∨ priorityRank p = 2 := by
  unfold priorityRank
  split_ifs <;> simp

theorem suggestionRules_length_le (d : FeatureDict) : (suggestionRules d).length ≤ 8 := by
  have key : ∀ l1 l2 l3 l4 l5 l6 l7 l8 : List Suggestion,
      l1.length ≤ 1 → l2.length ≤ 1 → l3.length ≤ 1 → l4.length ≤ 1 →
      l5.length ≤ 1 → l6.length ≤ 1 → l7.length ≤ 1 → l8.length ≤ 1 →
      (l1 ++ l2 ++ l3 ++ l4 ++ l5 ++ l6 ++ l7 ++ l8).length ≤ 8 := by
    intros l1 l2 l3 l4 l5 l6 l7 l8 h1 h2 h3 h4 h5 h6 h7 h8
    simp only [List.length_append]
    omega
  unfold suggestionRules
  apply key <;> (split_ifs <;> simp)

theorem sortByPriority_length (l : List Suggestion) :
    (sortByPriority l).length = l.length := by
  unfold sortByPriority
  induction l with
  | nil => simp
  | cons a l ih =>
    rcases priorityRank_trichotomy a.priority with h | h | h <;>
      simp only [List.filter_cons, h, List.length_append] <;>
      simp_all <;> omega

theorem mem_sortByPriority {x : Suggestion} {l : List Suggestion} (h : x ∈ l) :
    x ∈ sortByPriority l := by
  unfold sortByPriority
  rcases priorityRank_trichotomy x.priority with hr | hr | hr
  · exact List.mem_append_left _ (List.mem_append_left _ (List.mem_filter.mpr ⟨h, by simp [hr]⟩))
  · exact List.mem_append_left _ (List.mem_append_right _ (List.mem_filter.mpr ⟨h, by simp [hr]⟩))
  · exact List.mem_append_right _ (List.mem_filter.mpr ⟨h, by simp [hr]⟩)

theorem generateSuggestions_eq (d : FeatureDict) (score : ℚ) :
    generateSuggestions d score = sortByPriority (suggestionRules d) := by
  unfold generateSuggestions
  apply List.take_of_length_le
  rw [sortByPriority_length]
  exact suggestionRules_length_le d


theorem priorityRank_eq_zero_iff (p : String) : priorityRank p = 0 ↔ p = "high" := by
  unfold priorityRank
  split_ifs with h1 h2 <;> simp_all

theorem priorityRank_eq_one_iff (p : String) : priorityRank p = 1 ↔ p = "medium" := by
  unfold priorityRank
  split_ifs with h1 h2 <;> simp_all

theorem priorityRank_low (p : String) (h : p = "low") : priorityRank p = 2 := by
  subst h; rfl

/-- The concrete feature dictionary of the claim-C3 counterexample:
`total_words = 280` with `appropriate_length = True` (consistent with the
extractor, since `_check_length` is true for word counts in `[250, 900]`). -/
def lenCexDict : FeatureDict :=
  { total_words := some (FVal.num 280), appropriate_length := some (FVal.boolVal true) }

/-- Claim C3 (counterexample): a dictionary with `total_words = 280` —
outside `[300, 1000]` — and `appropriate_length = True` (exactly what the
extractor produces for a 280-word resume) receives no length suggestion at
all: the generator guards the length rule on `appropriate_length`, not on
the word count. -/
theorem length_suggestion_cex :
    getNum lenCexDict.total_words 0 = 280
    ∧ ((280 : ℚ) < 300 ∨ (1000 : ℚ) < 280)
    ∧ checkLength 280 = true
    ∧ (generateSuggestions lenCexDict 0).filter
        (fun s => s.suggestion = msgTooBrief || s.suggestion = msgTooLong) = [] := by
  refine ⟨rfl, Or.inl (by norm_num), by decide, ?_⟩
  rfl

/-- Claim C3 (amended): for every feature dictionary whose
`appropriate_length` entry is falsy and whose `total_words` lies outside
`[300, 1000]`, the generator emits the medium-priority length suggestion
with the direction-specific message: the 'too brief' message when the word
count is below 300, the 'too long' message when it is above 1000. -/
theorem length_suggestion_spec (d : FeatureDict) (score : ℚ)
    (hflag : getTruthy d.appropriate_length = false)
    (_hout : getNum d.total_words 0 < 300 ∨ getNum d.total_words 0 > 1000) :
    (getNum d.total_words 0 < 300 →
      (⟨"formatting", "medium", msgTooBrief⟩ : Suggestion) ∈ generateSuggestions d score)
    ∧ (getNum d.total_words 0 > 1000 →
      (⟨"formatting", "medium", msgTooLong⟩ : Suggestion) ∈ generateSuggestions d score) := by
  have hmem : ∀ x ∈ suggestionRules d, x ∈ generateSuggestions d score := by
    intro x hx
    rw [generateSuggestions_eq]
    exact mem_sortByPriority hx
  constructor
  · intro hlt
    apply hmem
    unfold suggestionRules
    simp only [List.mem_append]
    refine Or.inl (Or.inl (Or.inl (Or.inl (Or.inr ?_))))
    rw [if_pos (by simp [hflag]), if_pos hlt]
    simp
  · intro hgt
    have hnlt : ¬ getNum d.total_words 0 < 300 := by
      intro h; exact absurd (lt_trans h (by norm_num)) (not_lt.mpr (le_of_lt hgt))
    apply hmem
    unfold suggestionRules
    simp only [List.mem_append]
    refine Or.inl (Or.inl (Or.inl (Or.inl (Or.inr ?_))))
    rw [if_pos (by simp [hflag]), if_neg hnlt, if_pos hgt]
    simp

/-- Witness for `length_suggestion_spec` at a 100-word dictionary. -/
theorem length_suggestion_spec_check :
    (⟨"formatting", "medium", msgTooBrief⟩ : Suggestion)
      ∈ generateSuggestions { total_words := some (FVal.num 100) } 0 := by
  have h := (length_suggestion_spec { total_words := some (FVal.num 100) } 0 rfl
    (Or.inl (by norm_num [getNum, FVal.toFloat]))).1
  exact h (by norm_num [getNum, FVal.toFloat])

/-- Claim C7: for every feature dictionary and score, the suggestion list
has at most 8 entries, is sorted non-decreasingly by priority rank
(high < medium < low), and within each priority tier it is exactly the
rule-evaluation-order sublist of fired rules (stability; nothing is lost to
the truncation, which happens after sorting). -/
theorem suggestions_sorted_capped (d : FeatureDict) (score : ℚ) :
    (generateSuggestions d score).length ≤ 8
    ∧ (generateSuggestions d score).Pairwise
        (fun a b => priorityRank a.priority ≤ priorityRank b.priority)
    ∧ (generateSuggestions d score).filter (fun s => s.priority = "high")
        = (suggestionRules d).filter (fun s => s.priority = "high")
    ∧ (generateSuggestions d score).filter (fun s => s.priority = "medium")
        = (suggestionRules d).filter (fun s => s.priority = "medium")
    ∧ (generateSuggestions d score).filter (fun s => s.priority = "low")
        = (suggestionRules d).filter (fun s => s.priority = "low") := by
  have hlen : (generateSuggestions d score).length ≤ 8 := by
    unfold generateSuggestions
    rw [List.length_take]
    exact min_le_left _ _
  have hgen := generateSuggestions_eq d score
  refine ⟨hlen, ?_, ?_, ?_, ?_⟩
  · rw [hgen]
    unfold sortByPriority
    apply (List.pairwise_append).mpr
    refine ⟨?_, ?_, ?_⟩
    · apply (List.pairwise_append).mpr
      refine ⟨?_, ?_, ?_⟩
      · exact List.pairwise_of_forall_mem_list (fun a ha b hb => by
          have := (List.mem_filter.mp ha).2
          have := (List.mem_filter.mp hb).2
          simp_all)
      · exact List.pairwise_of_forall_mem_list (fun a ha b hb => by
          have := (List.mem_filter.mp ha).2
          have := (List.mem_filter.mp hb).2
          simp_all)
      · intro a ha b hb
        have h1 := (List.mem_filter.mp ha).2
        have h2 := (List.mem_filter.mp hb).2
        simp only [decide_eq_true_eq] at h1 h2
        omega
    · exact List.pairwise_of_forall_mem_list (fun a ha b hb => by
        have := (List.mem_filter.mp ha).2
        have := (List.mem_filter.mp hb).2
        simp_all)
    · intro a ha b hb
      have h2 := (List.mem_filter.mp hb).2
      rcases List.mem_append.mp ha with ha | ha
      · have h1 := (List.mem_filter.mp ha).2
        simp only [decide_eq_true_eq] at h1 h2
        omega
      · have h1 := (List.mem_filter.mp ha).2
        simp only [decide_eq_true_eq] at h1 h2
        omega
  · rw [hgen]
    unfold sortByPriority
    simp only [List.filter_append]
    have e0 : ((suggestionRules d).filter (fun x => priorityRank x.priority = 0)).filter
        (fun s => s.priority = "high")
        = (suggestionRules d).filter (fun s => s.priority = "high") := by
      rw [List.filter_filter]
      apply List.filter_congr
      intro a _
      by_cases h : a.priority = "high"
      · simp [h, (priorityRank_eq_zero_iff a.priority).mpr h, priorityRank]
      · simp [h]
    have e1 : ((suggestionRules d).filter (fun x => priorityRank x.priority = 1)).filter
        (fun s => s.priority = "high") = [] := by
      rw [List.filter_eq_nil_iff]
      intro a ha
      have h1 := (List.mem_filter.mp ha).2
      simp only [decide_eq_true_eq] at h1 ⊢
      intro h
      rw [(priorityRank_eq_zero_iff a.priority).mpr h] at h1
      omega
    have e2 : ((suggestionRules d).filter (fun x => priorityRank x.priority = 2)).filter
        (fun s => s.priority = "high") = [] := by
      rw [List.filter_eq_nil_iff]
      intro a ha
      have h1 := (List.mem_filter.mp ha).2
      simp only [decide_eq_true_eq] at h1 ⊢
      intro h
      rw [(priorityRank_eq_zero_iff a.priority).mpr h] at h1
      omega
    rw [e0, e1, e2]
    simp
  · rw [hgen]
    unfold sortByPriority
    simp only [List.filter_append]
    have e0 : ((suggestionRules d).filter (fun x => priorityRank x.priority = 0)).filter
        (fun s => s.priority = "medium") = [] := by
      rw [List.filter_eq_nil_iff]
      intro a ha
      have h1 := (List.mem_filter.mp ha).2
      simp only [decide_eq_true_eq] at h1 ⊢
      intro h
      rw [(priorityRank_eq_one_iff a.priority).mpr h] at h1
      omega
    have e1 : ((suggestionRules d).filter (fun x => priorityRank x.priority = 1)).filter
        (fun s => s.priority = "medium")
        = (suggestionRules d).filter (fun s => s.priority = "medium") := by
      rw [List.filter_filter]
      apply List.filter_congr
      intro a _
      by_cases h : a.priority = "medium"
      · simp [h, (priorityRank_eq_one_iff a.priority).mpr h, priorityRank]
      · simp [h]
    have e2 : ((suggestionRules d).filter (fun x => priorityRank x.priority = 2)).filter
        (fun s => s.priority = "medium") = [] := by
      rw [List.filter_eq_nil_iff]
      intro a ha
      have h1 := (List.mem_filter.mp ha).2
      simp only [decide_eq_true_eq] at h1 ⊢
      intro h
      rw [(priorityRank_eq_one_iff a.priority).mpr h] at h1
      omega
    rw [e0, e1, e2]
    simp
  · rw [hgen]
    unfold sortByPriority
    simp only [List.filter_append]
    have e0 : ((suggestionRules d).filter (fun x => priorityRank x.priority = 0)).filter
        (fun s => s.priority = "low") = [] := by
      rw [List.filter_eq_nil_iff]
      intro a ha
      have h1 := (List.mem_filter.mp ha).2
      simp only [decide_eq_true_eq] at h1 ⊢
      intro h
      rw [priorityRank_low a.priority h] at h1
      omega
    have e1 : ((suggestionRules d).filter (fun x => priorityRank x.priority = 1)).filter
        (fun s => s.priority = "low") = [] := by
      rw [List.filter_eq_nil_iff]
      intro a ha
      have h1 := (List.mem_filter.mp ha).2
      simp only [decide_eq_true_eq] at h1 ⊢
      intro h
      rw [priorityRank_low a.priority h] at h1
      omega
    have e2 : ((suggestionRules d).filter (fun x => priorityRank x.priority = 2)).filter
        (fun s => s.priority = "low")
        = (suggestionRules d).filter (fun s => s.priority = "low") := by
      rw [List.filter_filter]
      apply List.filter_congr
      intro a _
      by_cases h : a.priority = "low"
      · simp [h, priorityRank_low a.priority h, priorityRank]
      · simp [h]
    rw [e0, e1, e2]
    simp



/-- Claim C6: with the job description held fixed (fixed important-keyword
and technical sets), enlarging the resume's extracted word and technical
sets never decreases the keyword-match score computed by
`_calculate_keyword_match`. -/
theorem keyword_match_monotone (important jdTech r1all r1tech r2all r2tech : Finset String)
    (hall : r1all ⊆ r2all) (htech : r1tech ⊆ r2tech) :
    keywordRatioScore important jdTech r1all r1tech
      ≤ keywordRatioScore important jdTech r2all r2tech := by
  unfold keywordRatioScore
  by_cases h0 : important.card + jdTech.card = 0
  · simp [h0]
  · simp only [h0, if_false]
    have hD : (0 : ℚ) < ((important.card + jdTech.card : ℕ) : ℚ) := by
      exact_mod_cast Nat.pos_of_ne_zero h0
    have hN : ((important ∩ r1all).card + (jdTech ∩ r1tech).card * 2 : ℕ)
        ≤ ((important ∩ r2all).card + (jdTech ∩ r2tech).card * 2 : ℕ) := by
      have h1 := Finset.card_le_card (Finset.inter_subset_inter (Finset.Subset.refl important) hall)
      have h2 := Finset.card_le_card (Finset.inter_subset_inter (Finset.Subset.refl jdTech) htech)
      omega
    have hNq : ((((important ∩ r1all).card + (jdTech ∩ r1tech).card * 2 : ℕ)) : ℚ)
        ≤ (((important ∩ r2all).card + (jdTech ∩ r2tech).card * 2 : ℕ) : ℚ) := by
      exact_mod_cast hN
    exact max_le_max (le_refl 10)
      (min_le_min (le_refl 95)
        (mul_le_mul_of_nonneg_right ((div_le_div_iff_of_pos_right hD).mpr hNq) (by norm_num)))

/-- Witness for `keyword_match_monotone` on concrete keyword sets. -/
theorem keyword_match_monotone_check :
    keywordRatioScore {"python", "docker"} {"python"} ∅ ∅
      ≤ keywordRatioScore {"python", "docker"} {"python"} {"python"} {"python"} :=
  keyword_match_monotone _ _ _ _ _ _ (Finset.empty_subset _) (Finset.empty_subset _)

theorem keywordRatioScore_range (i jt ra rt : Finset String) :
    keywordRatioScore i jt ra rt = 50
    ∨ (10 ≤ keywordRatioScore i jt ra rt ∧ keywordRatioScore i jt ra rt ≤ 95) := by
  unfold keywordRatioScore
  by_cases h : i.card + jt.card = 0
  · left; simp [h]
  · right
    simp only [h, if_false]
    exact ⟨le_max_left _ _, max_le (by norm_num) (min_le_left _ _)⟩

theorem calculateKeywordMatch_eq (resumeText : String) (jd : String)
    (ht : pyTruthyStrOpt (some jd) = true) :
    calculateKeywordMatch resumeText (some jd)
      = (if jdTechSet (lowerL jd.toList) ∪ jdWordsSet (lowerL jd.toList) = ∅ then 50
         else keywordRatioScore
            (jdTechSet (lowerL jd.toList) ∪ jdWordsSet (lowerL jd.toList))
            (jdTechSet (lowerL jd.toList))
            (resumeWordsSet resumeText.toList ∪ resumeTechSet resumeText.toList)
            (resumeTechSet resumeText.toList)) := by
  unfold calculateKeywordMatch
  rw [if_neg (by simp [ht])]
  rfl

/-- Claim C1: the keyword-match computation returns exactly 50 when the job
description is absent (falsy) and exactly 50 when the extracted
important-keyword set is empty; otherwise it returns the match ratio —
keyword matches plus doubled technical matches over important-keyword count
plus job-description technical-term count — times 100, clamped to
`[10, 95]`; hence the result is always in `[10, 95]` or equal to 50. -/
theorem keyword_match_contract (resumeText : String) (jobDescription : Option String) :
    (pyTruthyStrOpt jobDescription = false →
      calculateKeywordMatch resumeText jobDescription = 50)
    ∧ (∀ jd, jobDescription = some jd →
        jdTechSet (lowerL jd.toList) ∪ jdWordsSet (lowerL jd.toList) = ∅ →
        calculateKeywordMatch resumeText jobDescription = 50)
    ∧ (∀ jd, jobDescription = some jd → pyTruthyStrOpt jobDescription = true →
        jdTechSet (lowerL jd.toList) ∪ jdWordsSet (lowerL jd.toList) ≠ ∅ →
        calculateKeywordMatch resumeText jobDescription
          = max 10 (min 95
              (((((jdTechSet (lowerL jd.toList) ∪ jdWordsSet (lowerL jd.toList))
                    ∩ (resumeWordsSet resumeText.toList ∪ resumeTechSet resumeText.toList)).card
                  + ((jdTechSet (lowerL jd.toList) ∩ resumeTechSet resumeText.toList).card * 2) : ℕ) : ℚ)
                / (((jdTechSet (lowerL jd.toList) ∪ jdWordsSet (lowerL jd.toList)).card
                  + (jdTechSet (lowerL jd.toList)).card : ℕ) : ℚ) * 100)))
    ∧ (calculateKeywordMatch resumeText jobDescription = 50
        ∨ (10 ≤ calculateKeywordMatch resumeText jobDescription
            ∧ calculateKeywordMatch resumeText jobDescription ≤ 95)) := by
  refine ⟨?_, ?_, ?_, ?_⟩
  · intro h
    unfold calculateKeywordMatch
    rw [if_pos (by simp [h])]
  · intro jd hjd hemp
    subst hjd
    by_cases ht : pyTruthyStrOpt (some jd) = true
    · rw [calculateKeywordMatch_eq resumeText jd ht, if_pos hemp]
    · unfold calculateKeywordMatch
      rw [if_pos (by simpa using ht)]
  · intro jd hjd ht hne
    subst hjd
    rw [calculateKeywordMatch_eq resumeText jd ht, if_neg hne]
    unfold keywordRatioScore
    have hcard : ¬ ((jdTechSet (lowerL jd.toList) ∪ jdWordsSet (lowerL jd.toList)).card
        + (jdTechSet (lowerL jd.toList)).card = 0) := by
      intro hz
      apply hne
      apply Finset.card_eq_zero.mp
      omega
    simp only [hcard, if_false]
  · rcases jobDescription with _ | jd
    · left
      unfold calculateKeywordMatch
      rw [if_pos (by simp [pyTruthyStrOpt])]
    · by_cases ht : pyTruthyStrOpt (some jd) = true
      · rw [calculateKeywordMatch_eq resumeText jd ht]
        by_cases hemp : jdTechSet (lowerL jd.toList) ∪ jdWordsSet (lowerL jd.toList) = ∅
        · left; rw [if_pos hemp]
        · rw [if_neg hemp]
          exact keywordRatioScore_range _ _ _ _
      · left
        unfold calculateKeywordMatch
        rw [if_pos (by simpa using ht)]

set_option maxRecDepth 100000 in
set_option maxHeartbeats 1000000 in
/-- Witness for `keyword_match_contract` on concrete texts. -/
theorem keyword_match_contract_check :
    calculateKeywordMatch "anything" none = 50
    ∧ calculateKeywordMatch "rrr" (some "the") = 50
    ∧ calculateKeywordMatch "sql" (some "sql") = 95 := by
  refine ⟨(keyword_match_contract "anything" none).1 rfl, ?_, ?_⟩
  · exact (keyword_match_contract "rrr" (some "the")).2.1 "the" rfl (by decide)
  · have h := (keyword_match_contract "sql" (some "sql")).2.2.1 "sql" rfl rfl (by decide)
    rw [h]
    have h1 : ((jdTechSet (lowerL "sql".toList) ∪ jdWordsSet (lowerL "sql".toList))
        ∩ (resumeWordsSet "sql".toList ∪ resumeTechSet "sql".toList)).card = 1 := by decide
    have h2 : (jdTechSet (lowerL "sql".toList) ∩ resumeTechSet "sql".toList).card = 1 := by decide
    have h3 : (jdTechSet (lowerL "sql".toList) ∪ jdWordsSet (lowerL "sql".toList)).card = 1 := by decide
    have h4 : (jdTechSet (lowerL "sql".toList)).card = 1 := by decide
    rw [h1, h2, h3, h4]
    norm_num [min_def, max_def]



theorem getDegreeLevel_spec (l : List Char) :
    getDegreeLevel l =
      (if tierAnyMatch ["phd", "ph.d", "doctorate", "doctoral"] (lowerL l) then 5
       else if tierAnyMatch ["master", "master" ++ apoS, "masters", "master" ++ apoS ++ "s",
          "ms", "m.s", "ms.", "m.s.", "ma", "m.a", "ma.", "m.a.", "mba", "meng", "m.eng"]
          (lowerL l) then 4
       else if tierAnyMatch ["bachelor", "bachelor" ++ apoS, "bachelors",
          "bachelor" ++ apoS ++ "s", "bs", "b.s", "bs.", "b.s.", "ba", "b.a", "ba.", "b.a.",
          "beng", "b.eng", "undergraduate"] (lowerL l) then 3
       else if tierAnyMatch ["associate", "diploma", "as", "a.s", "as.", "a.s.",
          "aa", "a.a", "aa.", "a.a."] (lowerL l) then 2
       else if tierAnyMatch ["high school", "ged", "secondary"] (lowerL l) then 1
       else 0) := by
  unfold getDegreeLevel
  simp only [degreePatterns]
  rcases hb5 : tierAnyMatch ["phd", "ph.d", "doctorate", "doctoral"] (lowerL l) <;>
  rcases hb4 : tierAnyMatch ["master", "master" ++ apoS, "masters", "master" ++ apoS ++ "s",
      "ms", "m.s", "ms.", "m.s.", "ma", "m.a", "ma.", "m.a.", "mba", "meng", "m.eng"]
      (lowerL l) <;>
  rcases hb3 : tierAnyMatch ["bachelor", "bachelor" ++ apoS, "bachelors",
      "bachelor" ++ apoS ++ "s", "bs", "b.s", "bs.", "b.s.", "ba", "b.a", "ba.", "b.a.",
      "beng", "b.eng", "undergraduate"] (lowerL l) <;>
  rcases hb2 : tierAnyMatch ["associate", "diploma", "as", "a.s", "as.", "a.s.",
      "aa", "a.a", "aa.", "a.a."] (lowerL l) <;>
  rcases hb1 : tierAnyMatch ["high school", "ged", "secondary"] (lowerL l) <;>
  simp [List.find?, hb5, hb4, hb3, hb2, hb1]

set_option maxRecDepth 100000 in
set_option maxHeartbeats 2000000 in
/-- Claim C5: the degree-level extractor scans the five tiers in fixed
order from PhD (5) down to high school (1) and returns the level of the
first (highest) tier with a matching pattern, or 0 when none matches:
the result is at most 5, every matching tier's level bounds the result from
below, a nonzero result is the level of a matching tier, and a text
containing both Master's and Bachelor's yields level 4. -/
theorem degree_level_priority :
    (∀ text : String, getDegreeLevel text.toList ≤ 5)
    ∧ (∀ (text : String) (t : Nat × List String), t ∈ degreePatterns →
        tierAnyMatch t.2 (lowerL text.toList) = true →
        t.1 ≤ getDegreeLevel text.toList)
    ∧ (∀ text : String, getDegreeLevel text.toList ≠ 0 →
        ∃ t, t ∈ degreePatterns ∧ t.1 = getDegreeLevel text.toList
          ∧ tierAnyMatch t.2 (lowerL text.toList) = true)
    ∧ getDegreeLevel (("Master" ++ apoS ++ "s degree and Bachelor" ++ apoS
        ++ "s degree").toList) = 4 := by
  refine ⟨?_, ?_, ?_, ?_⟩
  · intro text
    rw [getDegreeLevel_spec]
    split_ifs <;> norm_num
  · intro text t ht hmatch
    rw [getDegreeLevel_spec]
    simp only [degreePatterns, List.mem_cons, List.not_mem_nil, or_false] at ht
    rcases ht with h|h|h|h|h <;> subst h <;> simp only at hmatch <;>
      split_ifs <;> simp_all
  · intro text hne
    rw [getDegreeLevel_spec] at hne ⊢
    split_ifs at hne ⊢ with h5 h4 h3 h2 h1
    · exact ⟨(5, ["phd", "ph.d", "doctorate", "doctoral"]),
        by simp [degreePatterns], rfl, h5⟩
    · exact ⟨(4, ["master", "master" ++ apoS, "masters", "master" ++ apoS ++ "s",
        "ms", "m.s", "ms.", "m.s.", "ma", "m.a", "ma.", "m.a.", "mba", "meng", "m.eng"]),
        by simp [degreePatterns], rfl, h4⟩
    · exact ⟨(3, ["bachelor", "bachelor" ++ apoS, "bachelors", "bachelor" ++ apoS ++ "s",
        "bs", "b.s", "bs.", "b.s.", "ba", "b.a", "ba.", "b.a.", "beng", "b.eng",
        "undergraduate"]),
        by simp [degreePatterns], rfl, h3⟩
    · exact ⟨(2, ["associate", "diploma", "as", "a.s", "as.", "a.s.",
        "aa", "a.a", "aa.", "a.a."]),
        by simp [degreePatterns], rfl, h2⟩
    · exact ⟨(1, ["high school", "ged", "secondary"]),
        by simp [degreePatterns], rfl, h1⟩
    · exact absurd rfl hne
  · decide

set_option maxRecDepth 100000 in
/-- Witness for `degree_level_priority` on concrete texts. -/
theorem degree_level_priority_check :
    getDegreeLevel "i hold a phd in physics".toList = 5
    ∧ (4 : Nat) ≤ getDegreeLevel "ms and bs listed".toList
    ∧ getDegreeLevel "no education at all".toList ≤ 5 := by
  refine ⟨?_, ?_, degree_level_priority.1 "no education at all"⟩
  · have h2 := degree_level_priority.2.1 "i hold a phd in physics" (5, ["phd", "ph.d", "doctorate", "doctoral"]) (by simp [degreePatterns]) (by decide)
    have h1 := degree_level_priority.1 "i hold a phd in physics"
    omega
  · exact degree_level_priority.2.1 "ms and bs listed"
      (4, ["master", "master" ++ apoS, "masters", "master" ++ apoS ++ "s",
        "ms", "m.s", "ms.", "m.s.", "ma", "m.a", "ma.", "m.a.", "mba", "meng", "m.eng"])
      (by simp [degreePatterns]) (by decide)

/-- Claim C8: feature extraction is total (the embedding is a total
function) — both average-length ratios floor their denominator at 1, and
the readability score falls back to 60 when the external statistic cannot
be computed, and to the `[20, 100]` clamp of its value otherwise. -/
theorem extract_features_total (resumeText : String) (jobDescription : Option String)
    (flesch : Option ℚ) :
    (extractFeatures resumeText jobDescription flesch).avg_word_length
      = pyRound ((resumeText.toList.length : ℚ)
          / ((max (countWords (lowerL resumeText.toList)) 1 : ℕ) : ℚ) / 1.2) 2
    ∧ (extractFeatures resumeText jobDescription flesch).avg_sentence_length
      = pyRound (((countWords (lowerL resumeText.toList) : ℕ) : ℚ)
          / ((max (countSentences (lowerL resumeText.toList)) 1 : ℕ) : ℚ)) 2
    ∧ 1 ≤ max (countWords (lowerL resumeText.toList)) 1
    ∧ 1 ≤ max (countSentences (lowerL resumeText.toList)) 1
    ∧ (flesch = none →
        (extractFeatures resumeText jobDescription flesch).readability_score = 60)
    ∧ (∀ q : ℚ, flesch = some q →
        (extractFeatures resumeText jobDescription flesch).readability_score
          = max 20 (min 100 q)) := by
  refine ⟨rfl, rfl, le_max_right _ _, le_max_right _ _, ?_, ?_⟩
  · intro h; subst h; rfl
  · intro q h; subst h; rfl

/-- Witness for `extract_features_total` on a concrete text. -/
theorem extract_features_total_check :
    (extractFeatures "led teams" none none).readability_score = 60
    ∧ (extractFeatures "led teams" none (some 150)).readability_score = 100 := by
  refine ⟨(extract_features_total "led teams" none none).2.2.2.2.1 rfl, ?_⟩
  have h2 := (extract_features_total "led teams" none (some 150)).2.2.2.2.2 150 rfl
  rw [h2]
  norm_num [min_def, max_def]


end MergedApp
